import Mathlib

/-!
# Epic React advanced patterns: compound Toggle (exercise 03) and control props (exercise 06)

A shallow embedding of `src/exercise/03.js` and `src/exercise/06.js`.

JavaScript values are embedded as follows.

* A toggle state object is a `ToggleState`: its boolean `on` and, in `extra`, the other own
  properties the object carries (an object spread copies them, an object literal `{on: ..}`
  has none).  A position that can hold `undefined` instead of a state has type
  `Option ToggleState`, `none` standing for `undefined`.
* An action object is an `Action`: its `type` tag and its `initialState` property, `none`
  when the object has no such property.
* A `throw` is the `error` side of `Except Err` (or the `error` field of a `Run`).
* Calling a function that has effects yields a `Run`: the effects in the order they happened
  and the error that cut the call short, if one was thrown.
* What React keeps for a mounted component between two invocations (`useState`, `useReducer`
  and `useRef` cells) is an explicit record handed to the component function.
-/

namespace EpicReact

/-! ## Values shared by both exercises -/

/-- Errors that the code throws or that the JavaScript runtime throws on its behalf. -/
inductive Err where
  /-- Thrown by `toggleReducer`: the message is the text Unsupported type: followed by the tag. -/
  | unsupportedType (type : String)
  /-- Thrown by `useToggleContext`: must be used inside a Toggle component. -/
  | outsideToggle
  /-- A runtime TypeError: a property read on `undefined`, or a call of a value that is not a
  function. -/
  | typeError
  /-- An error thrown by code the caller supplied (a callback). -/
  | raised (msg : String)
  deriving DecidableEq, Repr

/-- The state object `{on}` of the toggle, with the other own properties it may carry. -/
structure ToggleState where
  /-- The property `on` (the word is reserved in Lean, hence the field name). -/
  isOn : Bool
  extra : List (String × String) := []
  deriving DecidableEq, Repr

/-- An action object `{type, initialState}`; `initialState` is `none` when the property is
absent (reading it gives `undefined`). -/
structure Action where
  type : String
  initialState : Option ToggleState := none
  deriving DecidableEq, Repr

/-- An observable effect of running a handler. -/
inductive Event where
  /-- Exercise 06: `dispatch(action)` of the `useReducer` cell was called. -/
  | dispatch (action : Action)
  /-- Exercise 06: the supplied `onChange` was called with these two arguments. -/
  | onChange (state : Option ToggleState) (action : Action)
  /-- Exercise 03: `setOn(value)` of the `useState` cell was called. -/
  | setOn (value : Bool)
  /-- An effect performed by code the caller supplied. -/
  | caller (effect : String)
  deriving DecidableEq, Repr

/-- The outcome of one call: the effects performed, in order, and the error thrown, if any. -/
structure Run where
  trace : List Event
  error : Option Err
  deriving DecidableEq, Repr

/-- The call that does nothing and returns. -/
def Run.skip : Run := ⟨[], none⟩

/-- Sequencing of two calls `first; second`: when `first` throws, `second` is not run. -/
def Run.andThen (first second : Run) : Run :=
  match first.error with
  | some _ => first
  | none => ⟨first.trace ++ second.trace, second.error⟩

/-- A property value of a props object.  A function value takes the argument list of the
call and yields the outcome of the call. -/
inductive PropVal where
  | undefined
  | null
  | bool (b : Bool)
  | text (s : String)
  | fn (f : List String → Run)

/-- A props object: its own properties in insertion order. -/
structure Props where
  entries : List (String × PropVal)

/-- The object `{}`. -/
def Props.empty : Props := ⟨[]⟩

/-- Whether the property list has an entry for `key`. -/
def hasEntry : List (String × PropVal) → String → Bool
  | [], _ => false
  | (k, _) :: rest, key => if k = key then true else hasEntry rest key

/-- The value of the first entry for `key` in a property list, `undefined` without one. -/
def getEntry : List (String × PropVal) → String → PropVal
  | [], _ => PropVal.undefined
  | (k, v) :: rest, key => if k = key then v else getEntry rest key

/-- The property list with `key` set to `v`: the entry for `key` keeps its place, a new
entry goes last. -/
def setEntry : List (String × PropVal) → String → PropVal → List (String × PropVal)
  | [], key, v => [(key, v)]
  | (k, w) :: rest, key, v =>
    if k = key then (key, v) :: rest else (k, w) :: setEntry rest key v

/-- Whether the object has the own property `key`. -/
def Props.has (p : Props) (key : String) : Bool :=
  hasEntry p.entries key

/-- The property read `p[key]`: `undefined` when there is no such property. -/
def Props.get (p : Props) (key : String) : PropVal :=
  getEntry p.entries key

/-- The assignment `p[key] = v`: an existing property keeps its place, a new one goes last. -/
def Props.set (p : Props) (key : String) (v : PropVal) : Props :=
  ⟨setEntry p.entries key v⟩

/-- The object literal `{...base, ...extra}`: every own property of `extra` is assigned, in
order, onto a copy of `base`. -/
def Props.spread (base extra : Props) : Props :=
  extra.entries.foldl (fun acc kv => acc.set kv.1 kv.2) base

/-- The rest object of the destructuring `{key, ...rest} = p`: the own properties of `p`
other than `key`. -/
def Props.rest (p : Props) (key : String) : Props :=
  ⟨p.entries.filter (fun kv => decide (kv.1 ≠ key))⟩

/-- The call `f(...args)`: calling a value that is not a function is a TypeError. -/
def PropVal.call (f : PropVal) (args : List String) : Run :=
  match f with
  | PropVal.fn g => g args
  | _ => ⟨[], some Err.typeError⟩

/-- The optional call `f?.(...args)`: nothing happens when `f` is `undefined` or `null`. -/
def PropVal.optionalCall (f : PropVal) (args : List String) : Run :=
  match f with
  | PropVal.undefined => Run.skip
  | PropVal.null => Run.skip
  | other => other.call args

/-! ## Exercise 06: control props -/

namespace Ex06

/-- The constant `actionTypes.toggle`. -/
def actionTypes.toggle : String := "toggle"

/-- The constant `actionTypes.reset`. -/
def actionTypes.reset : String := "reset"

/-- `callAll(...fns)(...args)`: `fns.forEach(fn => fn?.(...args))`, which calls the functions in
the order given and stops at the first one that throws. -/
def callAll (fns : List PropVal) (args : List String) : Run :=
  fns.foldl (fun done fn => done.andThen (fn.optionalCall args)) Run.skip

/-- `toggleReducer(state, {type, initialState})`.  The `toggle` case reads `state.on`, which is
a TypeError when `state` is `undefined`, and builds the fresh object `{on: !state.on}`; the
`reset` case returns the action's `initialState` as it is. -/
def toggleReducer (state : Option ToggleState) (action : Action) :
    Except Err (Option ToggleState) :=
  if action.type = actionTypes.toggle then
    match state with
    | some s => Except.ok (some { isOn := !s.isOn })
    | none => Except.error Err.typeError
  else if action.type = actionTypes.reset then
    Except.ok action.initialState
  else
    Except.error (Err.unsupportedType action.type)

/-- A reducer as `useToggle` uses it: it receives the stored state, which is `undefined` once a
reducer has returned `undefined`, and an action. -/
abbrev Reducer := Option ToggleState → Action → Except Err (Option ToggleState)

/-- An `onChange` callback supplied by the caller.  Its call is recorded as an
`Event.onChange`; the function tells which error the call throws, if any. -/
abbrev ChangeHandler := Option ToggleState → Action → Option Err

/-- The text of `warningMessage.onWithoutOnChange`. -/
def warningMessage.onWithoutOnChange : String :=
  "You provided a `on` prop to a the Toggle component without an `onChange` handler. " ++
  "This will render a read-only field. Otherwise, set either `onChange` or `readOnly`."

/-- The text of `warningMessage.valueForOnChangesToUndefinedOrNull`. -/
def warningMessage.valueForOnChangesToUndefinedOrNull : String :=
  "Thig is now being controlled"

/-- The text of `warningMessage.undefinedOrNullForOnChangesToValue`. -/
def warningMessage.undefinedOrNullForOnChangesToValue : String :=
  "Not long er being controlled"

/-- One call `warning(condition, message)` of the `warning` package. -/
structure WarningCall where
  condition : Bool
  message : String
  deriving DecidableEq, Repr

/-- The cells React keeps for one mounted `useToggle` between two invocations. -/
structure Hooks where
  /-- `.current` of `React.useRef({on: initialOn})`. -/
  initialState : ToggleState
  /-- The state of `React.useReducer(reducer, initialState)`. -/
  state : Option ToggleState
  /-- `.current` of `React.useRef(onIsControlled)`. -/
  onWasControlled : Bool
  /-- The dependency array `[onIsControlled, hasOnChange, readOnly, inProduction]` of the
  first effect at the last invocation. -/
  misuseDeps : Bool × Bool × Bool × Bool
  /-- The dependency array `[onWasControlled, onIsControlled, inProduction]` of the second
  effect at the last invocation. -/
  statusDeps : Bool × Bool × Bool
  deriving DecidableEq, Repr

/-- `React.useRef(initial).current` for a ref nobody assigns to: the value given at the first
invocation (when no cell is stored yet), whatever is passed later. -/
def useRef {α : Type} (stored : Option α) (initial : α) : α :=
  stored.getD initial

/-- The state returned by `React.useReducer(reducer, initialState)`: the initial state at the
first invocation, the stored state afterwards. -/
def useReducer {α : Type} (stored : Option α) (initialState : α) : α :=
  stored.getD initialState

/-- Whether `React.useEffect(effect, deps)` runs the effect after this invocation: after the
first invocation, and after one in which a dependency differs from the last invocation. -/
def effectRuns {α : Type} [DecidableEq α] (last : Option α) (deps : α) : Bool :=
  decide (last ≠ some deps)

/-- What `useControlledWarnings` leaves behind: its ref, the two dependency arrays, and the
calls of `warning` made by the effects that run after this invocation, in order. -/
structure Diagnostics where
  onWasControlled : Bool
  misuseDeps : Bool × Bool × Bool × Bool
  statusDeps : Bool × Bool × Bool
  calls : List WarningCall
  deriving DecidableEq, Repr

/-- `useControlledWarnings({onChange, onIsControlled, readOnly})`, with `process.env.NODE_ENV`
passed as `nodeEnv` and the stored cells, if any, as `prev`. -/
def useControlledWarnings (nodeEnv : String) (prev : Option Hooks)
    (onChange : Option ChangeHandler) (onIsControlled readOnly : Bool) : Diagnostics :=
  let hasOnChange := onChange.isSome
  let onWasControlled := useRef (prev.map (fun h => h.onWasControlled)) onIsControlled
  let inProduction := decide (nodeEnv = "production")
  let misuseDeps := (onIsControlled, hasOnChange, readOnly, inProduction)
  let statusDeps := (onWasControlled, onIsControlled, inProduction)
  let consoleAlertForMisusedProps : List WarningCall :=
    [⟨!(onIsControlled && !hasOnChange && !readOnly && inProduction),
      warningMessage.onWithoutOnChange⟩]
  let consoleAlertIfOnChangesToControlledStatus : List WarningCall :=
    [⟨!(onIsControlled && !onWasControlled && inProduction),
      warningMessage.valueForOnChangesToUndefinedOrNull⟩,
     ⟨!(!onIsControlled && onWasControlled && inProduction),
      warningMessage.undefinedOrNullForOnChangesToValue⟩]
  { onWasControlled := onWasControlled
    misuseDeps := misuseDeps
    statusDeps := statusDeps
    calls :=
      (if effectRuns (prev.map (fun h => h.misuseDeps)) misuseDeps
        then consoleAlertForMisusedProps else []) ++
      (if effectRuns (prev.map (fun h => h.statusDeps)) statusDeps
        then consoleAlertIfOnChangesToControlledStatus else []) }

/-- The configuration object of `useToggle`, with the defaults of its parameter list.  The
property `on` (named `controlledOn` in the function) is `none` when it is `null` or
`undefined`. -/
structure Config where
  initialOn : Bool := false
  reducer : Reducer := toggleReducer
  controlledOn : Option Bool := none
  onChange : Option ChangeHandler := none
  readOnly : Bool := false

/-- The object `{...state, on}`: the own properties of `state` (none when it is `undefined`)
with `on` set to the given value. -/
def withOn (state : Option ToggleState) (on' : Bool) : ToggleState :=
  match state with
  | some s => { s with isOn := on' }
  | none => { isOn := on' }

/-- `dispatchWithOnChange(action)` inside `useToggle`, for the `state` and `on` of the
invocation that created it. -/
def dispatchWithOnChange (cfg : Config) (state : Option ToggleState) (on' : Bool)
    (action : Action) : Run :=
  let onIsControlled := cfg.controlledOn.isSome
  let dispatched : List Event := if !onIsControlled then [Event.dispatch action] else []
  match cfg.onChange with
  | none => ⟨dispatched, none⟩
  | some onChange =>
    match cfg.reducer (some (withOn state on')) action with
    | Except.error e => ⟨dispatched, some e⟩
    | Except.ok next => ⟨dispatched ++ [Event.onChange next action], onChange next action⟩

/-- `getTogglerProps({onClick, ...props} = {})` inside `useToggle`; `arg` is `none` when the
argument is `undefined`. -/
def getTogglerProps (on' : Bool) (toggle : Run) (arg : Option Props) : Props :=
  let given := arg.getD Props.empty
  let onClick := given.get "onClick"
  let props := given.rest "onClick"
  Props.spread
    ⟨[("aria-pressed", PropVal.bool on'),
      ("onClick", PropVal.fn (callAll [onClick, PropVal.fn (fun _ => toggle)]))]⟩
    props

/-- `getResetterProps({onClick, ...props} = {})` inside `useToggle`. -/
def getResetterProps (reset : Run) (arg : Option Props) : Props :=
  let given := arg.getD Props.empty
  let onClick := given.get "onClick"
  let props := given.rest "onClick"
  Props.spread
    ⟨[("onClick", PropVal.fn (callAll [onClick, PropVal.fn (fun _ => reset)]))]⟩
    props

/-- The object `useToggle` returns.  `toggle` and `reset` take no argument and are given by
the outcome of calling them. -/
structure ToggleApi where
  /-- The property `on`. -/
  isOn : Bool
  reset : Run
  toggle : Run
  getTogglerProps : Option Props → Props
  getResetterProps : Option Props → Props

/-- One invocation of `useToggle`: what it returns, the cells React holds afterwards, and the
`warning` calls made by the effects that run after it. -/
structure Invocation where
  api : ToggleApi
  hooks : Hooks
  warnings : List WarningCall

/-- `useToggle(config)`, with `process.env.NODE_ENV` passed as `nodeEnv` and the cells React
stored at the previous invocation as `prev` (`none` at the first invocation).  Reading
`state.on` throws when the stored state is `undefined` and `on` is not controlled. -/
def useToggle (nodeEnv : String) (cfg : Config) (prev : Option Hooks) : Except Err Invocation :=
  let initialState := useRef (prev.map (fun h => h.initialState)) { isOn := cfg.initialOn }
  let state := useReducer (prev.map (fun h => h.state)) (some initialState)
  let onIsControlled := cfg.controlledOn.isSome
  let onOrThrow : Except Err Bool :=
    match cfg.controlledOn with
    | some controlledOn => Except.ok controlledOn
    | none =>
      match state with
      | some s => Except.ok s.isOn
      | none => Except.error Err.typeError
  match onOrThrow with
  | Except.error e => Except.error e
  | Except.ok on' =>
    let diagnostics := useControlledWarnings nodeEnv prev cfg.onChange onIsControlled cfg.readOnly
    let toggle := dispatchWithOnChange cfg state on' { type := actionTypes.toggle }
    let reset := dispatchWithOnChange cfg state on'
      { type := actionTypes.reset, initialState := some initialState }
    Except.ok
      { api :=
          { isOn := on'
            reset := reset
            toggle := toggle
            getTogglerProps := getTogglerProps on' toggle
            getResetterProps := getResetterProps reset }
        hooks :=
          { initialState := initialState
            state := state
            onWasControlled := diagnostics.onWasControlled
            misuseDeps := diagnostics.misuseDeps
            statusDeps := diagnostics.statusDeps }
        warnings := diagnostics.calls }

/-- The state the `useReducer` cell holds once React has processed the `dispatch` calls of a
trace, in order, with the reducer of the invocation that processes them; a reducer that throws
makes that invocation throw. -/
def applyDispatches (reducer : Reducer) (state : Option ToggleState) :
    List Event → Except Err (Option ToggleState)
  | [] => Except.ok state
  | Event.dispatch action :: rest =>
    match reducer state action with
    | Except.error e => Except.error e
    | Except.ok next => applyDispatches reducer next rest
  | _ :: rest => applyDispatches reducer state rest

/-- The cells after a handler has run: only the `useReducer` state can have changed. -/
def Hooks.afterRun (hooks : Hooks) (reducer : Reducer) (run : Run) : Except Err Hooks :=
  match applyDispatches reducer hooks.state run.trace with
  | Except.error e => Except.error e
  | Except.ok next => Except.ok { hooks with state := next }

/-- The two handlers `useToggle` returns. -/
inductive Command where
  | toggle
  | reset
  deriving DecidableEq, Repr

/-- Calling the handler on the object returned by an invocation. -/
def Command.run (c : Command) (api : ToggleApi) : Run :=
  match c with
  | Command.toggle => api.toggle
  | Command.reset => api.reset

/-- A mounted `useToggle` driven by a sequence of handler calls, one per invocation: each
handler is the one returned by the current invocation, React processes its dispatches and
invokes `useToggle` again with the same configuration.  The result is the last invocation. -/
def session (nodeEnv : String) (cfg : Config) :
    Option Hooks → List Command → Except Err Invocation
  | prev, [] => useToggle nodeEnv cfg prev
  | prev, c :: cs =>
    match useToggle nodeEnv cfg prev with
    | Except.error e => Except.error e
    | Except.ok inv =>
      match inv.hooks.afterRun cfg.reducer (c.run inv.api) with
      | Except.error e => Except.error e
      | Except.ok hooks => session nodeEnv cfg (some hooks) cs

/-- The action a handler of `useToggle` dispatches: `{type: actionTypes.toggle}` for `toggle`,
`{type: actionTypes.reset, initialState}` for `reset`. -/
def Command.action (c : Command) (initialState : ToggleState) : Action :=
  match c with
  | Command.toggle => { type := actionTypes.toggle }
  | Command.reset => { type := actionTypes.reset, initialState := some initialState }

/-- The argument pairs of the calls of `onChange` recorded in a trace, in order. -/
def onChangeCalls (trace : List Event) : List (Option ToggleState × Action) :=
  trace.filterMap (fun e =>
    match e with
    | Event.onChange state action => some (state, action)
    | _ => none)

/-- The actions of the calls of `dispatch` recorded in a trace, in order. -/
def dispatchCalls (trace : List Event) : List Action :=
  trace.filterMap (fun e =>
    match e with
    | Event.dispatch action => some action
    | _ => none)

/-- Folding a reducer over a list of actions, from a given state. -/
def reduceAll (reducer : Reducer) (state : Option ToggleState) :
    List Action → Except Err (Option ToggleState)
  | [] => Except.ok state
  | action :: rest =>
    match reducer state action with
    | Except.error e => Except.error e
    | Except.ok next => reduceAll reducer next rest

/-- The `on` after one handler call, read off the handler alone: `toggle` negates it and
`reset` sets it to `initialOn`. -/
def Command.onAfter (c : Command) (initialOn current : Bool) : Bool :=
  match c with
  | Command.toggle => !current
  | Command.reset => initialOn

/-- The `on` that a sequence of handler calls leads to, read off the handlers alone. -/
def onAfter (initialOn : Bool) (on' : Bool) (cmds : List Command) : Bool :=
  cmds.foldl (fun current c => c.onAfter initialOn current) on'

/-- Modelled from the spec: the `warning` package that 06.js imports is not among the sources.
Whether the call `warning(condition, message)` prints its message: it prints exactly when the
condition is false, and prints nothing at all when `process.env.NODE_ENV` is `production` (the
spec has the diagnostics observed only outside production mode). -/
def WarningCall.emitted (nodeEnv : String) (w : WarningCall) : Bool :=
  decide (nodeEnv ≠ "production") && !w.condition

/-- The messages that a list of `warning` calls prints, in order. -/
def emittedMessages (nodeEnv : String) (calls : List WarningCall) : List String :=
  (calls.filter (fun w => w.emitted nodeEnv)).map (fun w => w.message)

/-- The configuration of the invocation that follows the given steps: that of the next step,
or the last configuration when no step is left. -/
def nextConfig (steps : List (Config × Option Command)) (last : Config) : Config :=
  match steps with
  | [] => last
  | (cfg, _) :: _ => cfg

/-- A mounted `useToggle` invoked again and again, each time with a configuration of its own:
a step is the configuration of one invocation and the handler called on what it returned, if
one is called before the next invocation.  React processes the dispatches with the reducer of
the next invocation.  The result is the invocation with the last configuration. -/
def invocations (nodeEnv : String) :
    Option Hooks → List (Config × Option Command) → Config → Except Err Invocation
  | prev, [], last => useToggle nodeEnv last prev
  | prev, (cfg, handler) :: rest, last =>
    match useToggle nodeEnv cfg prev with
    | Except.error e => Except.error e
    | Except.ok inv =>
      match handler with
      | none => invocations nodeEnv (some inv.hooks) rest last
      | some c =>
        match inv.hooks.afterRun (nextConfig rest last).reducer (c.run inv.api) with
        | Except.error e => Except.error e
        | Except.ok hooks => invocations nodeEnv (some hooks) rest last

/-- The state returned by `React.useState(initial)`: the initial value at the first
invocation (no cell stored yet), the stored value afterwards. -/
def useState {α : Type} (stored : Option α) (initial : α) : α :=
  stored.getD initial

/-- The props `{on, onChange}` that `App` gives to a `Toggle` element; a property left out
is `none`. -/
structure ToggleProps where
  controlledOn : Option Bool := none
  onChange : Option ChangeHandler := none

/-- `Toggle({on: controlledOn, onChange})`: the props object of the `Switch` element it
returns, `getTogglerProps({on})`, together with the invocation of `useToggle` behind it. -/
def Toggle (nodeEnv : String) (props : ToggleProps) (prev : Option Hooks) :
    Except Err (Props × Invocation) :=
  match useToggle nodeEnv { controlledOn := props.controlledOn, onChange := props.onChange }
      prev with
  | Except.error e => Except.error e
  | Except.ok inv =>
    Except.ok (inv.api.getTogglerProps (some ⟨[("on", PropVal.bool inv.api.isOn)]⟩), inv)

/-- Modelled from the spec: the `Switch` component of `../switch` is not among the sources; the
spec describes it as a generic display control to which the click handler is forwarded.  A
click on it calls the `onClick` of its props with the click event. -/
def Switch.click (props : Props) : Run :=
  (props.get "onClick").call ["click"]

/-- The two `useState` cells of the mounted `App`. -/
structure AppCells where
  bothOn : Bool
  timesClicked : Nat
  deriving DecidableEq, Repr

/-- A call of one of the two state setters of `App`: `setBothOn(value)`, or `setTimesClicked`
with an updater function (`setTimesClicked(0)` being the constant updater). -/
inductive AppUpdate where
  | setBothOn (value : Bool)
  | setTimesClicked (update : Nat → Nat)

/-- The cells of `App` once React has processed the setter calls, in order. -/
def AppCells.apply (cells : AppCells) (updates : List AppUpdate) : AppCells :=
  updates.foldl (fun current u =>
    match u with
    | AppUpdate.setBothOn value => { current with bothOn := value }
    | AppUpdate.setTimesClicked update =>
      { current with timesClicked := update current.timesClicked }) cells

/-- `handleToggleChange(state, action)` inside `App`, for the `timesClicked` of the invocation
that created it: the setter calls it makes.  Reading `state.on` throws when `state` is
`undefined`. -/
def handleToggleChange (timesClicked : Nat) (state : Option ToggleState) (action : Action) :
    Except Err (List AppUpdate) :=
  if action.type = actionTypes.toggle ∧ timesClicked > 4 then
    Except.ok []
  else
    match state with
    | none => Except.error Err.typeError
    | some s =>
      Except.ok [AppUpdate.setBothOn s.isOn, AppUpdate.setTimesClicked (fun c => c + 1)]

/-- `handleResetClick()` inside `App`: the setter calls it makes. -/
def handleResetClick : List AppUpdate :=
  [AppUpdate.setBothOn false, AppUpdate.setTimesClicked (fun _ => 0)]

/-- What one invocation of `App` produces: its state, its two handlers, the props of the three
`Toggle` elements, and which of the notice and the click count it shows. -/
structure AppRendered where
  cells : AppCells
  handleToggleChange : Option ToggleState → Action → Except Err (List AppUpdate)
  handleResetClick : List AppUpdate
  firstToggle : ToggleProps
  secondToggle : ToggleProps
  uncontrolledToggle : ToggleProps
  /-- Whether the notice is shown (`timesClicked > 4`). -/
  notice : Bool
  /-- The click count shown when the notice is not. -/
  clickCount : Option Nat

/-- `App()`, for the stored cells of its two `useState` calls (`none` at the first
invocation).  As an `onChange` prop, `handleToggleChange` throws what it throws; the
`onChange` of the uncontrolled `Toggle` only logs. -/
def App (prev : Option AppCells) : AppRendered :=
  let bothOn := useState (prev.map (fun c => c.bothOn)) false
  let timesClicked := useState (prev.map (fun c => c.timesClicked)) 0
  { cells := { bothOn := bothOn, timesClicked := timesClicked }
    handleToggleChange := handleToggleChange timesClicked
    handleResetClick := handleResetClick
    firstToggle := { controlledOn := some bothOn }
    secondToggle :=
      { controlledOn := some bothOn
        onChange := some (fun state action =>
          match handleToggleChange timesClicked state action with
          | Except.error e => some e
          | Except.ok _ => none) }
    uncontrolledToggle := { onChange := some (fun _ _ => none) }
    notice := decide (timesClicked > 4)
    clickCount := if timesClicked > 4 then none else some timesClicked }

/-- The setter calls made by the `onChange` calls recorded in a trace, when `onChange` is the
given handler. -/
def changeUpdates (handler : Option ToggleState → Action → Except Err (List AppUpdate)) :
    List Event → List AppUpdate
  | [] => []
  | Event.onChange state action :: rest =>
    match handler state action with
    | Except.error _ => changeUpdates handler rest
    | Except.ok updates => updates ++ changeUpdates handler rest
  | _ :: rest => changeUpdates handler rest

/-- What React keeps for the mounted `App` tree: the cells of `App` (`none` before its first
invocation) and those of the `useToggle` of its second `Toggle`. -/
structure Mounted where
  app : Option AppCells
  second : Option Hooks

/-- The two user events of the controlled part of `App`: a click on the second `Toggle` and a
click on the Reset button. -/
inductive AppEvent where
  | toggleChange
  | resetClick
  deriving DecidableEq, Repr

/-- One user event on the mounted `App`: the tree is invoked, the event runs the handler of
that invocation, and React processes the setter calls. -/
def deliver (nodeEnv : String) (m : Mounted) : AppEvent → Except Err Mounted
  | AppEvent.resetClick =>
    let app := App m.app
    Except.ok { m with app := some (app.cells.apply app.handleResetClick) }
  | AppEvent.toggleChange =>
    let app := App m.app
    match Toggle nodeEnv app.secondToggle m.second with
    | Except.error e => Except.error e
    | Except.ok (props, inv) =>
      let run := Switch.click props
      match inv.hooks.afterRun toggleReducer run with
      | Except.error e => Except.error e
      | Except.ok hooks =>
        Except.ok
          { app := some (app.cells.apply (changeUpdates app.handleToggleChange run.trace))
            second := some hooks }

/-- A sequence of user events on the mounted `App`, one per invocation. -/
def deliverAll (nodeEnv : String) : Mounted → List AppEvent → Except Err Mounted
  | m, [] => Except.ok m
  | m, e :: rest =>
    match deliver nodeEnv m e with
    | Except.error err => Except.error err
    | Except.ok next => deliverAll nodeEnv next rest

end Ex06

/-! ## Exercise 03: flexible compound components -/

namespace Ex03

/-- The value `{on, toggle}` that `Toggle` gives to the Provider of `ToggleContext`.  `toggle`
takes no argument and is given by the outcome of calling it. -/
structure ContextValue where
  /-- The property `on`. -/
  isOn : Bool
  toggle : Run
  deriving DecidableEq, Repr

/-- The state returned by `React.useState(initial)`: the initial value at the first
invocation (no cell stored yet), the stored value afterwards. -/
def useState {α : Type} (stored : Option α) (initial : α) : α :=
  stored.getD initial

/-- `React.useContext(ToggleContext)`: the value of the nearest enclosing Provider, and
`undefined` (the default of `React.createContext()`) when there is none.  `providers` lists
the values of the enclosing Providers, nearest first. -/
def useContext (providers : List ContextValue) : Option ContextValue :=
  providers.head?

/-- `Toggle({children})`: the value it establishes for its descendants, for the stored cell
of `React.useState(false)` (`none` at the first invocation). -/
def Toggle (stored : Option Bool) : ContextValue :=
  let on' := useState stored false
  let toggle : Run := ⟨[Event.setOn (!on')], none⟩
  { isOn := on', toggle := toggle }

/-- The `useState` cell of `Toggle` after a handler has run: the value of the last `setOn`
call, if there was one. -/
def afterRun (on' : Bool) (run : Run) : Bool :=
  run.trace.foldl (fun current e =>
    match e with
    | Event.setOn value => value
    | _ => current) on'

/-- `useToggleContext()`, called under the given Providers. -/
def useToggleContext (providers : List ContextValue) : Except Err ContextValue :=
  match useContext providers with
  | none => Except.error Err.outsideToggle
  | some state => Except.ok state

/-- `ToggleOn({children})`: `none` is the `null` it returns when `on` is false. -/
def ToggleOn {χ : Type} (providers : List ContextValue) (children : χ) :
    Except Err (Option χ) :=
  match useToggleContext providers with
  | Except.error e => Except.error e
  | Except.ok state => Except.ok (if state.isOn then some children else none)

/-- `ToggleOff({children})`: `none` is the `null` it returns when `on` is true. -/
def ToggleOff {χ : Type} (providers : List ContextValue) (children : χ) :
    Except Err (Option χ) :=
  match useToggleContext providers with
  | Except.error e => Except.error e
  | Except.ok state => Except.ok (if state.isOn then none else some children)

/-- `ToggleButton(props)`: the props object of the `Switch` element it returns,
`{on, onClick: toggle, ...props}`. -/
def ToggleButton (providers : List ContextValue) (props : Props) : Except Err Props :=
  match useToggleContext providers with
  | Except.error e => Except.error e
  | Except.ok state =>
    Except.ok
      (Props.spread
        ⟨[("on", PropVal.bool state.isOn), ("onClick", PropVal.fn (fun _ => state.toggle))]⟩
        props)

/-- The same call made `k` times in a row. -/
def repeated (r : Run) : Nat → Run
  | 0 => Run.skip
  | k + 1 => r.andThen (repeated r k)

/-- The stored `on` of a mounted `Toggle` after `n` rounds, each of which invokes `Toggle` and
calls the `toggle` of that invocation once. -/
def rounds : Option Bool → Nat → Bool
  | stored, 0 => (Toggle stored).isOn
  | stored, n + 1 =>
    rounds (some (afterRun (Toggle stored).isOn (Toggle stored).toggle)) n

end Ex03

/-- A props object is well formed when no two of its own properties have the same key. -/
def Props.WellFormed (p : Props) : Prop :=
  (p.entries.map (fun kv => kv.1)).Nodup

/-! ## Theorems -/

namespace Ex06

/-- C1: for every state `{on: b}` one `toggle` action gives `{on: !b}` and two give back the
state itself (the action may carry any `initialState`, which the toggle case ignores). -/
theorem toggleReducer_toggle_involution (b : Bool) (i : Option ToggleState) :
    toggleReducer (some { isOn := b }) { type := actionTypes.toggle, initialState := i }
        = Except.ok (some { isOn := !b })
      ∧ (toggleReducer (some { isOn := b }) { type := actionTypes.toggle, initialState := i }).bind
          (fun s => toggleReducer s { type := actionTypes.toggle, initialState := i })
        = Except.ok (some { isOn := b }) := by
  cases b <;> exact ⟨rfl, rfl⟩

/-- C2: a `reset` action returns its `initialState` whatever the current state is, the
`undefined` state included. -/
theorem toggleReducer_reset (s : Option ToggleState) (i : ToggleState) :
    toggleReducer s { type := actionTypes.reset, initialState := some i }
      = Except.ok (some i) := by
  rfl

/-- C3: `toggleReducer` throws the unsupported-type error exactly when the tag of the action is
neither `toggle` nor `reset`, and the error then carries that tag; on a state object it returns
a state for every `toggle` action and for every `reset` action carrying a state. -/
theorem toggleReducer_unsupported_iff (state : Option ToggleState) (action : Action)
    (s i : ToggleState) (j : Option ToggleState) :
    ((∃ t, toggleReducer state action = Except.error (Err.unsupportedType t))
        ↔ (action.type ≠ actionTypes.toggle ∧ action.type ≠ actionTypes.reset))
      ∧ (toggleReducer state action = Except.error (Err.unsupportedType action.type)
        ↔ (action.type ≠ actionTypes.toggle ∧ action.type ≠ actionTypes.reset))
      ∧ (∃ next, toggleReducer (some s) { type := actionTypes.toggle, initialState := j }
          = Except.ok (some next))
      ∧ (∃ next, toggleReducer state { type := actionTypes.reset, initialState := some i }
          = Except.ok (some next)) := by
  refine ⟨?_, ?_, ⟨_, rfl⟩, ⟨_, rfl⟩⟩
  · unfold toggleReducer
    by_cases h1 : action.type = actionTypes.toggle
    · rw [if_pos h1]
      cases state <;> simp [h1]
    · rw [if_neg h1]
      by_cases h2 : action.type = actionTypes.reset
      · rw [if_pos h2]
        simp [h2]
      · rw [if_neg h2]
        simp [h1, h2]
  · unfold toggleReducer
    by_cases h1 : action.type = actionTypes.toggle
    · rw [if_pos h1]
      cases state <;> simp [h1]
    · rw [if_neg h1]
      by_cases h2 : action.type = actionTypes.reset
      · rw [if_pos h2]
        simp [h2]
      · rw [if_neg h2]
        simp [h1, h2]

/-- In controlled mode `dispatchWithOnChange` never calls `dispatch`. -/
theorem dispatchCalls_controlled (cfg : Config) (c : Bool) (state : Option ToggleState)
    (on' : Bool) (action : Action) :
    dispatchCalls
      (dispatchWithOnChange { cfg with controlledOn := some c } state on' action).trace = [] := by
  unfold dispatchWithOnChange
  cases hc : cfg.onChange with
  | none => simp [hc, dispatchCalls]
  | some f =>
    cases hr : cfg.reducer (some (withOn state on')) action with
    | error e => simp [hc, hr, dispatchCalls]
    | ok next => simp [hc, hr, dispatchCalls]

/-- A trace without `dispatch` calls leaves the `useReducer` state as it is. -/
theorem applyDispatches_of_no_dispatch (reducer : Reducer) (state : Option ToggleState)
    (trace : List Event) (h : dispatchCalls trace = []) :
    applyDispatches reducer state trace = Except.ok state := by
  induction trace with
  | nil => rfl
  | cons e rest ih =>
    cases e with
    | dispatch a => simp [dispatchCalls] at h
    | onChange st a =>
      have h' : dispatchCalls rest = [] := by simpa [dispatchCalls] using h
      simpa [applyDispatches] using ih h'
    | setOn v =>
      have h' : dispatchCalls rest = [] := by simpa [dispatchCalls] using h
      simpa [applyDispatches] using ih h'
    | caller x =>
      have h' : dispatchCalls rest = [] := by simpa [dispatchCalls] using h
      simpa [applyDispatches] using ih h'

/-- C4: with an external `on` value `c` supplied, for every stored cell content (none yet
included), every configuration and both handlers: the invocation returns `on = c`, the
handler makes no `dispatch` call, the stored state after the handler is the stored state
before it, and the next invocation returns `on = c` again over the same stored state. -/
theorem useToggle_controlled_frame (nodeEnv : String) (cfg : Config) (c : Bool)
    (prev : Option Hooks) (cmd : Command) :
    ∃ inv, useToggle nodeEnv { cfg with controlledOn := some c } prev = Except.ok inv
      ∧ inv.api.isOn = c
      ∧ inv.hooks.state = useReducer (prev.map (fun h => h.state))
          (some (useRef (prev.map (fun h => h.initialState)) { isOn := cfg.initialOn }))
      ∧ dispatchCalls (cmd.run inv.api).trace = []
      ∧ inv.hooks.afterRun cfg.reducer (cmd.run inv.api) = Except.ok inv.hooks
      ∧ ∃ inv', useToggle nodeEnv { cfg with controlledOn := some c } (some inv.hooks)
            = Except.ok inv'
          ∧ inv'.api.isOn = c ∧ inv'.hooks.state = inv.hooks.state := by
  have hd : ∀ (inv : Invocation),
      useToggle nodeEnv { cfg with controlledOn := some c } prev = Except.ok inv →
      dispatchCalls (cmd.run inv.api).trace = [] := by
    intro inv hinv
    simp only [useToggle] at hinv
    injection hinv with hinv
    subst hinv
    cases cmd <;> exact dispatchCalls_controlled cfg c _ _ _
  refine ⟨_, rfl, rfl, rfl, hd _ rfl, ?_, _, rfl, rfl, rfl⟩
  unfold Hooks.afterRun
  rw [applyDispatches_of_no_dispatch _ _ _ (hd _ rfl)]

/-- Without an `onChange` in the configuration `dispatchWithOnChange` calls no callback. -/
theorem onChangeCalls_without_onChange (cfg : Config) (state : Option ToggleState) (on' : Bool)
    (action : Action) (hc : cfg.onChange = none) :
    onChangeCalls (dispatchWithOnChange cfg state on' action).trace = [] := by
  unfold dispatchWithOnChange
  cases hm : cfg.controlledOn <;> simp [hc, onChangeCalls]

/-- With an `onChange` in the configuration and a reducer that returns `next` on the effective
state, `dispatchWithOnChange` calls the callback once, with `next` and the action, and ends as
that call ends. -/
theorem onChangeCalls_with_onChange (cfg : Config) (state : Option ToggleState) (on' : Bool)
    (action : Action) (f : ChangeHandler) (next : Option ToggleState)
    (hc : cfg.onChange = some f)
    (hr : cfg.reducer (some (withOn state on')) action = Except.ok next) :
    onChangeCalls (dispatchWithOnChange cfg state on' action).trace = [(next, action)]
      ∧ (dispatchWithOnChange cfg state on' action).error = f next action := by
  unfold dispatchWithOnChange
  cases hm : cfg.controlledOn <;> simp [hc, hr, onChangeCalls]

/-- What an invocation of `useToggle` that returns is made of. -/
theorem useToggle_ok (nodeEnv : String) (cfg : Config) (prev : Option Hooks) (inv : Invocation)
    (h : useToggle nodeEnv cfg prev = Except.ok inv) :
    inv.hooks.initialState
        = useRef (prev.map (fun h => h.initialState)) { isOn := cfg.initialOn }
      ∧ inv.hooks.state = useReducer (prev.map (fun h => h.state)) (some inv.hooks.initialState)
      ∧ inv.api.toggle = dispatchWithOnChange cfg inv.hooks.state inv.api.isOn
          (Command.toggle.action inv.hooks.initialState)
      ∧ inv.api.reset = dispatchWithOnChange cfg inv.hooks.state inv.api.isOn
          (Command.reset.action inv.hooks.initialState)
      ∧ inv.api.getTogglerProps = getTogglerProps inv.api.isOn inv.api.toggle
      ∧ inv.api.getResetterProps = getResetterProps inv.api.reset
      ∧ (∀ c, cfg.controlledOn = some c → inv.api.isOn = c)
      ∧ (cfg.controlledOn = none → ∃ s, inv.hooks.state = some s ∧ inv.api.isOn = s.isOn) := by
  unfold useToggle at h
  cases hc : cfg.controlledOn with
  | some c =>
    simp only [hc] at h
    injection h with h
    subst h
    exact ⟨rfl, rfl, rfl, rfl, rfl, rfl, fun c' hc' => Option.some.inj hc',
      fun hn => Option.noConfusion hn⟩
  | none =>
    simp only [hc] at h
    cases hs : useReducer (Option.map (fun h => h.state) prev)
        (some (useRef (Option.map (fun h => h.initialState) prev)
          { isOn := cfg.initialOn })) with
    | none =>
      simp only [hs] at h
      cases h
    | some s =>
      simp only [hs] at h
      injection h with h
      subst h
      exact ⟨rfl, hs.symm, rfl, rfl, rfl, rfl,
        fun c' hc' => Option.noConfusion hc', fun _ => ⟨s, rfl, rfl⟩⟩

/-- With an `onChange` in the configuration and a reducer that throws on the effective state,
`dispatchWithOnChange` ends with that error and calls no callback. -/
theorem onChangeCalls_reducer_throws (cfg : Config) (state : Option ToggleState) (on' : Bool)
    (action : Action) (f : ChangeHandler) (err : Err)
    (hc : cfg.onChange = some f)
    (hr : cfg.reducer (some (withOn state on')) action = Except.error err) :
    onChangeCalls (dispatchWithOnChange cfg state on' action).trace = []
      ∧ (dispatchWithOnChange cfg state on' action).error = some err := by
  unfold dispatchWithOnChange
  cases hm : cfg.controlledOn <;> simp [hc, hr, onChangeCalls]

/-- The object `{...state, on}` spelled out: `on` is the given value, the other properties are
those of `state`, none when `state` is `undefined`. -/
theorem withOn_eq (state : Option ToggleState) (on' : Bool) :
    withOn state on'
      = { isOn := on'
          extra := match state with
            | some s => s.extra
            | none => [] } := by
  cases state <;> rfl

/-- C5, refuted as stated: at the first invocation without `on`, with an `onChange` and a
reducer that throws on every action, `toggle` and `reset` make their `dispatch` call and end
with the reducer's error, and `onChange` is not called at all. -/
theorem onChange_not_called_when_reducer_throws :
    (useToggle "development"
        { reducer := fun _ action => Except.error (Err.unsupportedType action.type)
          onChange := some (fun _ _ => none) } none).map
        (fun inv => (onChangeCalls inv.api.toggle.trace, inv.api.toggle,
          onChangeCalls inv.api.reset.trace, inv.api.reset.error))
      = Except.ok ([],
          ⟨[Event.dispatch { type := actionTypes.toggle }],
            some (Err.unsupportedType actionTypes.toggle)⟩,
          [], some (Err.unsupportedType actionTypes.reset)) := by
  rfl

/-- C5, amended: in an invocation of `useToggle` that returns, in either mode and for both
handlers, with `e` the effective state written out (its `on` is the `on` the invocation
returns: the external `on` when one is supplied, the stored `on` otherwise; its other
properties are those of the stored state): without an `onChange` no callback is called; with
one, whenever the reducer returns `next` on `e` and the action, the callback is called exactly
once, with `next` and the action, and the handler ends as that call ends; and whenever the
reducer throws there, the callback is not called and the handler ends with that error.  The
default reducer always returns a state there, and for an external `on = true` and the toggle
action that state is `{on: false}`. -/
theorem onChange_called_once_with_next_state (nodeEnv : String) (cfg : Config)
    (prev : Option Hooks) (inv : Invocation) (cmd : Command)
    (h : useToggle nodeEnv cfg prev = Except.ok inv) :
    (cfg.onChange = none → onChangeCalls (cmd.run inv.api).trace = [])
      ∧ (∀ f next, cfg.onChange = some f →
          cfg.reducer
            (some { isOn := inv.api.isOn
                    extra := match inv.hooks.state with
                      | some s => s.extra
                      | none => [] })
            (cmd.action inv.hooks.initialState) = Except.ok next →
          onChangeCalls (cmd.run inv.api).trace = [(next, cmd.action inv.hooks.initialState)]
            ∧ (cmd.run inv.api).error = f next (cmd.action inv.hooks.initialState))
      ∧ (∀ f err, cfg.onChange = some f →
          cfg.reducer
            (some { isOn := inv.api.isOn
                    extra := match inv.hooks.state with
                      | some s => s.extra
                      | none => [] })
            (cmd.action inv.hooks.initialState) = Except.error err →
          onChangeCalls (cmd.run inv.api).trace = []
            ∧ (cmd.run inv.api).error = some err)
      ∧ (∀ c, cfg.controlledOn = some c → inv.api.isOn = c)
      ∧ (cfg.controlledOn = none → ∃ s, inv.hooks.state = some s ∧ inv.api.isOn = s.isOn)
      ∧ (∃ next, toggleReducer
            (some { isOn := inv.api.isOn
                    extra := match inv.hooks.state with
                      | some s => s.extra
                      | none => [] })
            (cmd.action inv.hooks.initialState) = Except.ok (some next))
      ∧ (cfg.controlledOn = some true →
          toggleReducer
            (some { isOn := inv.api.isOn
                    extra := match inv.hooks.state with
                      | some s => s.extra
                      | none => [] })
            (Command.toggle.action inv.hooks.initialState)
              = Except.ok (some { isOn := false })) := by
  obtain ⟨-, -, ht, hr, -, -, hon, hun⟩ := useToggle_ok nodeEnv cfg prev inv h
  have hrun : cmd.run inv.api = dispatchWithOnChange cfg inv.hooks.state inv.api.isOn
      (cmd.action inv.hooks.initialState) := by
    cases cmd
    · exact ht
    · exact hr
  refine ⟨?_, ?_, ?_, hon, hun, ?_, ?_⟩
  · intro hc
    rw [hrun]
    exact onChangeCalls_without_onChange cfg _ _ _ hc
  · intro f next hc hred
    rw [← withOn_eq] at hred
    rw [hrun]
    exact onChangeCalls_with_onChange cfg _ _ _ f next hc hred
  · intro f err hc hred
    rw [← withOn_eq] at hred
    rw [hrun]
    exact onChangeCalls_reducer_throws cfg _ _ _ f err hc hred
  · cases cmd
    · exact ⟨_, rfl⟩
    · exact ⟨_, rfl⟩
  · intro hc
    rw [hon true hc]
    rfl

/-- C5, amended, at a concrete input: an invocation with external `on = true` over a stored
state `{on: false, label: x}`, with a reducer that returns the state it is given and an
`onChange` that returns; `toggle` calls `onChange` once, with the effective state
`{on: true, label: x}` and the toggle action. -/
theorem onChange_called_once_with_next_state_witness :
    ∃ inv, useToggle "development"
        { controlledOn := some true
          reducer := fun state _ => Except.ok state
          onChange := some (fun _ _ => none) }
        (some { initialState := { isOn := false }
                state := some { isOn := false, extra := [("label", "x")] }
                onWasControlled := true
                misuseDeps := (true, true, false, false)
                statusDeps := (true, true, false) }) = Except.ok inv
      ∧ onChangeCalls inv.api.toggle.trace
        = [(some { isOn := true, extra := [("label", "x")] },
            { type := actionTypes.toggle })] :=
  ⟨_, rfl,
    ((onChange_called_once_with_next_state "development"
        { controlledOn := some true
          reducer := fun state _ => Except.ok state
          onChange := some (fun _ _ => none) }
        (some { initialState := { isOn := false }
                state := some { isOn := false, extra := [("label", "x")] }
                onWasControlled := true
                misuseDeps := (true, true, false, false)
                statusDeps := (true, true, false) }) _
        Command.toggle rfl).2.1 (fun _ _ => none)
          (some { isOn := true, extra := [("label", "x")] }) rfl rfl).1⟩

/-- In uncontrolled mode an invocation over a stored state object returns, with the `on` of
that state. -/
theorem useToggle_uncontrolled (nodeEnv : String) (cfg : Config) (prev : Option Hooks)
    (st : ToggleState) (hc : cfg.controlledOn = none)
    (hs : useReducer (prev.map (fun h => h.state))
      (some (useRef (prev.map (fun h => h.initialState)) { isOn := cfg.initialOn })) = some st) :
    ∃ inv, useToggle nodeEnv cfg prev = Except.ok inv ∧ inv.api.isOn = st.isOn
      ∧ inv.hooks.state = some st := by
  unfold useToggle
  simp only [hc, hs]
  exact ⟨_, rfl, rfl, rfl⟩

/-- In uncontrolled mode React, processing the trace of `dispatchWithOnChange(action)`, applies
the reducer to the stored state and the action once. -/
theorem applyDispatches_uncontrolled (cfg : Config) (reducer : Reducer)
    (stored state : Option ToggleState) (on' : Bool) (action : Action)
    (hc : cfg.controlledOn = none) :
    applyDispatches reducer stored (dispatchWithOnChange cfg state on' action).trace
      = reducer stored action := by
  unfold dispatchWithOnChange
  cases ho : cfg.onChange with
  | none =>
    simp only [hc, ho]
    cases hr : reducer stored action <;> simp [applyDispatches, hr]
  | some f =>
    cases hn : cfg.reducer (some (withOn state on')) action with
    | error e =>
      simp only [hc, ho, hn]
      cases hr : reducer stored action <;> simp [applyDispatches, hr]
    | ok next =>
      simp only [hc, ho, hn]
      cases hr : reducer stored action <;> simp [applyDispatches, hr]

/-- Uncontrolled sessions with the default reducer, from any stored state object: the session
returns, and the `on` it returns is that of folding `toggleReducer` over the actions. -/
theorem session_uncontrolled_from (nodeEnv : String) (cfg : Config)
    (hc : cfg.controlledOn = none) (hred : cfg.reducer = toggleReducer) (cmds : List Command) :
    ∀ (prev : Option Hooks) (st ini : ToggleState),
      useRef (prev.map (fun h => h.initialState)) { isOn := cfg.initialOn } = ini →
      useReducer (prev.map (fun h => h.state)) (some ini) = some st →
      ∃ inv final, session nodeEnv cfg prev cmds = Except.ok inv
        ∧ reduceAll toggleReducer (some st) (cmds.map (fun c => c.action ini))
          = Except.ok (some final)
        ∧ inv.api.isOn = final.isOn
        ∧ inv.api.isOn = onAfter ini.isOn st.isOn cmds := by
  induction cmds with
  | nil =>
    intro prev st ini hi hs
    subst hi
    obtain ⟨inv, hinv, hon, -⟩ := useToggle_uncontrolled nodeEnv cfg prev st hc hs
    exact ⟨inv, st, hinv, rfl, hon, hon⟩
  | cons c cs ih =>
    intro prev st ini hi hs
    subst hi
    obtain ⟨inv, hinv, hon, hst⟩ := useToggle_uncontrolled nodeEnv cfg prev st hc hs
    obtain ⟨hini, -, ht, hr, -, -, -, -⟩ := useToggle_ok nodeEnv cfg prev inv hinv
    have hrun : c.run inv.api = dispatchWithOnChange cfg inv.hooks.state inv.api.isOn
        (c.action inv.hooks.initialState) := by
      cases c
      · exact ht
      · exact hr
    have hstep : applyDispatches cfg.reducer inv.hooks.state (c.run inv.api).trace
        = toggleReducer (some st) (c.action inv.hooks.initialState) := by
      rw [hrun, applyDispatches_uncontrolled cfg _ _ _ _ _ hc, hred, hst]
    have hnext : ∃ st', toggleReducer (some st) (c.action inv.hooks.initialState)
        = Except.ok (some st')
        ∧ st'.isOn = c.onAfter inv.hooks.initialState.isOn st.isOn := by
      cases c
      · exact ⟨_, rfl, rfl⟩
      · exact ⟨_, rfl, rfl⟩
    obtain ⟨st', hred', hon'⟩ := hnext
    have hafter : inv.hooks.afterRun cfg.reducer (c.run inv.api)
        = Except.ok { inv.hooks with state := some st' } := by
      unfold Hooks.afterRun
      rw [hstep, hred']
    obtain ⟨inv', final, hsess, hfold, hfin, hfin'⟩ :=
      ih (some { inv.hooks with state := some st' }) st' inv.hooks.initialState rfl rfl
    rw [hini] at hfold hfin' hred' hon'
    refine ⟨inv', final, ?_, ?_, hfin, ?_⟩
    · simp only [session, hinv, hafter]
      exact hsess
    · simp only [List.map_cons, reduceAll, hred']
      exact hfold
    · rw [hfin']
      simp only [onAfter, List.foldl_cons, hon']

/-- C6: without an external `on` and with the default reducer, for every `initialOn`, every
`onChange` and `readOnly`, and every sequence of `toggle` and `reset` calls (one per
invocation, from the first invocation on): the session returns, and the `on` it returns is the
`on` of the state obtained by folding `toggleReducer` over the dispatched actions from
`{on: initialOn}`, which is also what negating at each `toggle` and going back to `initialOn`
at each `reset` gives.  From `initialOn = false`, one `toggle` gives `true` and a following
`reset` gives `false`. -/
theorem session_uncontrolled_on (nodeEnv : String) (initialOn : Bool)
    (onChange : Option ChangeHandler) (readOnly : Bool) (cmds : List Command) :
    (∃ inv final,
        session nodeEnv { initialOn := initialOn, onChange := onChange, readOnly := readOnly }
          none cmds = Except.ok inv
        ∧ reduceAll toggleReducer (some { isOn := initialOn })
            (cmds.map (fun c => c.action { isOn := initialOn })) = Except.ok (some final)
        ∧ inv.api.isOn = final.isOn
        ∧ inv.api.isOn = onAfter initialOn initialOn cmds)
      ∧ (session nodeEnv { initialOn := false, onChange := onChange, readOnly := readOnly }
          none [Command.toggle]).map (fun inv => inv.api.isOn) = Except.ok true
      ∧ (session nodeEnv { initialOn := false, onChange := onChange, readOnly := readOnly }
          none [Command.toggle, Command.reset]).map (fun inv => inv.api.isOn)
            = Except.ok false := by
  have key := fun (i : Bool) (l : List Command) =>
    session_uncontrolled_from nodeEnv
      { initialOn := i, onChange := onChange, readOnly := readOnly } rfl rfl l none
      { isOn := i } { isOn := i } rfl rfl
  refine ⟨key initialOn cmds, ?_, ?_⟩
  · obtain ⟨inv, final, hs, -, -, hon⟩ := key false [Command.toggle]
    rw [hs]
    exact congrArg Except.ok hon
  · obtain ⟨inv, final, hs, -, -, hon⟩ := key false [Command.toggle, Command.reset]
    rw [hs]
    exact congrArg Except.ok hon

end Ex06

/-! ### Props objects -/

/-- Reading an entry after setting one: the value set at that key, the old value elsewhere. -/
theorem getEntry_setEntry (l : List (String × PropVal)) (key k : String) (v : PropVal) :
    getEntry (setEntry l key v) k = if k = key then v else getEntry l k := by
  induction l with
  | nil =>
    by_cases hk : k = key
    · simp [setEntry, getEntry, hk]
    · have hk' : ¬ key = k := fun h => hk h.symm
      simp [setEntry, getEntry, hk, hk']
  | cons kv rest ih =>
    obtain ⟨k0, w⟩ := kv
    by_cases h0 : k0 = key
    · by_cases hk : k = key
      · simp [setEntry, getEntry, h0, hk]
      · have hk' : ¬ key = k := fun h => hk h.symm
        simp [setEntry, getEntry, h0, hk, hk']
    · by_cases hk0 : k0 = k
      · have hk : ¬ k = key := fun h => h0 (hk0.trans h)
        simp [setEntry, getEntry, h0, hk0, hk]
      · simp [setEntry, getEntry, h0, hk0, ih]

/-- Reading a property after an assignment: the assigned value at the assigned key, the old
value at every other key. -/
theorem Props.get_set (p : Props) (key k : String) (v : PropVal) :
    (p.set key v).get k = if k = key then v else p.get k :=
  getEntry_setEntry p.entries key k v

/-- A spread of an object without the property `k` leaves `k` as it was. -/
theorem Props.get_spread_of_not_has (extra : List (String × PropVal)) (k : String) :
    ∀ base : Props, hasEntry extra k = false →
      (Props.spread base ⟨extra⟩).get k = base.get k := by
  induction extra with
  | nil => intro base _; rfl
  | cons kv rest ih =>
    obtain ⟨k0, w⟩ := kv
    intro base h
    by_cases h0 : k0 = k
    · simp [hasEntry, h0] at h
    · have hrest : hasEntry rest k = false := by simpa [hasEntry, h0] using h
      have hk : ¬ k = k0 := fun e => h0 e.symm
      have := ih (base.set k0 w) hrest
      simp only [Props.spread, List.foldl_cons] at this ⊢
      rw [this, Props.get_set, if_neg hk]

/-- The rest object of a destructuring has no property of the key taken out. -/
theorem Props.rest_not_has (p : Props) (key : String) : (p.rest key).has key = false := by
  obtain ⟨l⟩ := p
  unfold Props.rest Props.has
  induction l with
  | nil => rfl
  | cons kv rest ih =>
    obtain ⟨k0, w⟩ := kv
    by_cases h0 : k0 = key
    · simpa [List.filter_cons, h0] using ih
    · simpa [List.filter_cons, h0, hasEntry] using ih

/-- A spread of a well formed object with the property `k` sets `k` to that object's value. -/
theorem Props.get_spread_of_has (extra : List (String × PropVal)) (k : String) :
    ∀ base : Props, (extra.map (fun kv => kv.1)).Nodup → hasEntry extra k = true →
      (Props.spread base ⟨extra⟩).get k = getEntry extra k := by
  induction extra with
  | nil => intro base _ h; simp [hasEntry] at h
  | cons kv rest ih =>
    obtain ⟨k0, w⟩ := kv
    intro base hnd h
    have hnd' : (rest.map (fun kv => kv.1)).Nodup := (List.nodup_cons.mp hnd).2
    have hnot : k0 ∉ rest.map (fun kv => kv.1) := (List.nodup_cons.mp hnd).1
    by_cases h0 : k0 = k
    · subst h0
      have hrest : hasEntry rest k0 = false := by
        clear ih hnd hnd' h
        induction rest with
        | nil => rfl
        | cons kv' rest' ih' =>
          obtain ⟨k1, w1⟩ := kv'
          have hne : ¬ k1 = k0 := fun e => hnot (by simp [e])
          have hnot' : k0 ∉ rest'.map (fun kv => kv.1) := fun hm => hnot (by simp [hm])
          simpa [hasEntry, hne] using ih' hnot'
      have := Props.get_spread_of_not_has rest k0 (base.set k0 w) hrest
      simp only [Props.spread, List.foldl_cons] at this ⊢
      rw [this, Props.get_set]
      simp [getEntry]
    · have hrest : hasEntry rest k = true := by simpa [hasEntry, h0] using h
      have := ih (base.set k0 w) hnd' hrest
      simp only [Props.spread, List.foldl_cons] at this ⊢
      rw [this]
      simp [getEntry, h0]

namespace Ex03

/-- C7: `useToggleContext` throws exactly when `React.useContext` finds no value, that is
under no Provider at all, and the error is then the must-be-used-inside-a-Toggle error; under
a `Toggle` container (whatever encloses that container) it returns the value that container
established. -/
theorem useToggleContext_throws_iff (providers outer : List ContextValue)
    (stored : Option Bool) :
    ((∃ e, useToggleContext providers = Except.error e) ↔ useContext providers = none)
      ∧ (useToggleContext providers = Except.error Err.outsideToggle
          ↔ useContext providers = none)
      ∧ (useContext providers = none ↔ providers = [])
      ∧ useToggleContext (Toggle stored :: outer) = Except.ok (Toggle stored) := by
  refine ⟨?_, ?_, ?_, rfl⟩
  · cases providers <;> simp [useToggleContext, useContext]
  · cases providers <;> simp [useToggleContext, useContext]
  · cases providers <;> simp [useContext]

/-- C8: under a container whose value has the given `on`, `ToggleOn` returns its children
exactly when `on` is true and `null` exactly when it is false, `ToggleOff` the other way
round, so that exactly one of the two returns the children. -/
theorem ToggleOn_ToggleOff_exclusive {χ : Type} (value : ContextValue)
    (outer : List ContextValue) (children : χ) :
    (ToggleOn (value :: outer) children = Except.ok (some children) ↔ value.isOn = true)
      ∧ (ToggleOn (value :: outer) children = Except.ok none ↔ value.isOn = false)
      ∧ (ToggleOff (value :: outer) children = Except.ok (some children) ↔ value.isOn = false)
      ∧ (ToggleOff (value :: outer) children = Except.ok none ↔ value.isOn = true)
      ∧ ((ToggleOn (value :: outer) children = Except.ok (some children)
            ∧ ToggleOff (value :: outer) children = Except.ok none)
          ∨ (ToggleOn (value :: outer) children = Except.ok none
            ∧ ToggleOff (value :: outer) children = Except.ok (some children))) := by
  cases h : value.isOn <;>
    simp [ToggleOn, ToggleOff, useToggleContext, useContext, h]

/-- C9, refuted as stated: under a fresh `Toggle` (whose `toggle` calls `setOn(true)`), with
props that carry an `onClick`, a click on the control runs the caller's handler alone: the
container's `toggle` is replaced and no `setOn` call is made. -/
theorem ToggleButton_caller_onClick_replaces_toggle :
    (ToggleButton [Toggle none]
        ⟨[("onClick", PropVal.fn (fun _ => ⟨[Event.caller "clicked"], none⟩))]⟩).map
        (fun p => (p.get "onClick").call ["click"])
      = Except.ok ⟨[Event.caller "clicked"], none⟩
      ∧ (Toggle none).toggle = ⟨[Event.setOn true], none⟩
      ∧ (ToggleButton [Toggle none]
        ⟨[("onClick", PropVal.fn (fun _ => ⟨[Event.caller "clicked"], none⟩))]⟩).map
        (fun p => (p.get "onClick").call ["click"])
      ≠ Except.ok ((Toggle none).toggle.andThen ⟨[Event.caller "clicked"], none⟩) := by
  refine ⟨rfl, rfl, ?_⟩
  intro h
  have h' : (⟨[Event.caller "clicked"], none⟩ : Run)
      = ⟨[Event.setOn true, Event.caller "clicked"], none⟩ := Except.ok.inj h
  exact absurd h' (by decide)

/-- C9, amended: under a container, `ToggleButton` returns a `Switch` element whose `onClick`
is the `onClick` of the given props whenever these carry one, and the container's `toggle`
when they carry none. -/
theorem ToggleButton_onClick (value : ContextValue) (outer : List ContextValue)
    (props : Props) (hwf : props.WellFormed) :
    ∃ p, ToggleButton (value :: outer) props = Except.ok p
      ∧ (props.has "onClick" = true → p.get "onClick" = props.get "onClick")
      ∧ (props.has "onClick" = false →
          p.get "onClick" = PropVal.fn (fun _ => value.toggle)
            ∧ ∀ args, (p.get "onClick").call args = value.toggle) := by
  obtain ⟨l⟩ := props
  refine ⟨_, rfl, ?_, ?_⟩
  · intro h
    exact Props.get_spread_of_has l "onClick" _ hwf h
  · intro h
    have hg := Props.get_spread_of_not_has l "onClick"
      ⟨[("on", PropVal.bool value.isOn), ("onClick", PropVal.fn (fun _ => value.toggle))]⟩ h
    have hb : (Props.mk [("on", PropVal.bool value.isOn),
        ("onClick", PropVal.fn (fun _ => value.toggle))]).get "onClick"
        = PropVal.fn (fun _ => value.toggle) := by
      simp [Props.get, getEntry]
    rw [hb] at hg
    refine ⟨hg, fun args => ?_⟩
    rw [hg]
    rfl

/-- C9, amended, at concrete inputs: props with an `onClick` of their own. -/
theorem ToggleButton_onClick_witness :
    ∃ p, ToggleButton [Toggle none]
        ⟨[("onClick", PropVal.fn (fun _ => ⟨[Event.caller "clicked"], none⟩))]⟩ = Except.ok p
      ∧ p.get "onClick" = PropVal.fn (fun _ => ⟨[Event.caller "clicked"], none⟩) :=
  (ToggleButton_onClick (Toggle none) []
    ⟨[("onClick", PropVal.fn (fun _ => ⟨[Event.caller "clicked"], none⟩))]⟩
    (by simp [Props.WellFormed])).imp
    (fun _ h => ⟨h.1, h.2.1 rfl⟩)

end Ex03

namespace Ex06

/-- `callAll(onClick, handler)(...args)` is the optional call of `onClick` followed, unless
that call throws, by the call of `handler`. -/
theorem callAll_pair (onClick : PropVal) (handler : Run) (args : List String) :
    callAll [onClick, PropVal.fn (fun _ => handler)] args
      = (onClick.optionalCall args).andThen handler := rfl

/-- The `onClick` of the object `getTogglerProps` returns is the `callAll` of the given
`onClick` and `toggle`, whatever other properties are given. -/
theorem getTogglerProps_get_onClick (on' : Bool) (toggle : Run) (arg : Option Props) :
    (getTogglerProps on' toggle arg).get "onClick"
      = PropVal.fn (callAll
          [(arg.getD Props.empty).get "onClick", PropVal.fn (fun _ => toggle)]) := by
  unfold getTogglerProps
  have h := Props.get_spread_of_not_has ((arg.getD Props.empty).rest "onClick").entries
    "onClick"
    ⟨[("aria-pressed", PropVal.bool on'),
      ("onClick", PropVal.fn (callAll
        [(arg.getD Props.empty).get "onClick", PropVal.fn (fun _ => toggle)]))]⟩
    (Props.rest_not_has _ _)
  rw [h]
  simp [Props.get, getEntry]

/-- The `onClick` of the object `getResetterProps` returns is the `callAll` of the given
`onClick` and `reset`, whatever other properties are given. -/
theorem getResetterProps_get_onClick (reset : Run) (arg : Option Props) :
    (getResetterProps reset arg).get "onClick"
      = PropVal.fn (callAll
          [(arg.getD Props.empty).get "onClick", PropVal.fn (fun _ => reset)]) := by
  unfold getResetterProps
  have h := Props.get_spread_of_not_has ((arg.getD Props.empty).rest "onClick").entries
    "onClick"
    ⟨[("onClick", PropVal.fn (callAll
        [(arg.getD Props.empty).get "onClick", PropVal.fn (fun _ => reset)]))]⟩
    (Props.rest_not_has _ _)
  rw [h]
  simp [Props.get, getEntry]

/-- C10, refuted as stated: at the first invocation with the default configuration, where
`toggle` makes one `dispatch` call, a caller `onClick` that throws is called once and the
click ends there: the internal `toggle` is not invoked (no `dispatch` call is made). -/
theorem getTogglerProps_toggle_not_invoked :
    (useToggle "development" {} none).map (fun inv =>
        ((inv.api.getTogglerProps (some ⟨[("onClick", PropVal.fn (fun args =>
          ⟨[Event.caller (String.join args)], some (Err.raised "boom")⟩))]⟩)).get
          "onClick").call ["click"])
      = Except.ok ⟨[Event.caller "click"], some (Err.raised "boom")⟩
      ∧ (useToggle "development" {} none).map (fun inv => inv.api.toggle)
      = Except.ok ⟨[Event.dispatch { type := actionTypes.toggle }], none⟩ := by
  exact ⟨rfl, rfl⟩

/-- C10, amended: in an invocation of `useToggle` that returns, for every argument of
`getTogglerProps` (respectively `getResetterProps`), `undefined` included, and every argument
list, calling the `onClick` of the returned props makes the optional call of the caller's
`onClick` with those arguments and then, unless that call has thrown, calls the internal
`toggle` (respectively `reset`); the other properties given never change that.  So without a
caller `onClick` the internal handler runs once, and with one that returns, the caller's
handler runs once with the same arguments and then the internal handler runs once. -/
theorem getTogglerProps_onClick (nodeEnv : String) (cfg : Config) (prev : Option Hooks)
    (inv : Invocation) (h : useToggle nodeEnv cfg prev = Except.ok inv)
    (arg : Option Props) (args : List String) :
    ((inv.api.getTogglerProps arg).get "onClick").call args
        = (((arg.getD Props.empty).get "onClick").optionalCall args).andThen inv.api.toggle
      ∧ ((inv.api.getResetterProps arg).get "onClick").call args
        = (((arg.getD Props.empty).get "onClick").optionalCall args).andThen inv.api.reset
      ∧ ((arg.getD Props.empty).get "onClick" = PropVal.undefined →
          ((inv.api.getTogglerProps arg).get "onClick").call args = inv.api.toggle
            ∧ ((inv.api.getResetterProps arg).get "onClick").call args = inv.api.reset)
      ∧ (∀ f, (arg.getD Props.empty).get "onClick" = PropVal.fn f → (f args).error = none →
          ((inv.api.getTogglerProps arg).get "onClick").call args
              = ⟨(f args).trace ++ inv.api.toggle.trace, inv.api.toggle.error⟩
            ∧ ((inv.api.getResetterProps arg).get "onClick").call args
              = ⟨(f args).trace ++ inv.api.reset.trace, inv.api.reset.error⟩) := by
  obtain ⟨-, -, -, -, hgt, hgr, -, -⟩ := useToggle_ok nodeEnv cfg prev inv h
  have ht : ((inv.api.getTogglerProps arg).get "onClick").call args
      = (((arg.getD Props.empty).get "onClick").optionalCall args).andThen inv.api.toggle := by
    rw [hgt, getTogglerProps_get_onClick]
    exact callAll_pair _ _ _
  have hr : ((inv.api.getResetterProps arg).get "onClick").call args
      = (((arg.getD Props.empty).get "onClick").optionalCall args).andThen inv.api.reset := by
    rw [hgr, getResetterProps_get_onClick]
    exact callAll_pair _ _ _
  refine ⟨ht, hr, ?_, ?_⟩
  · intro hu
    rw [ht, hr, hu]
    exact ⟨rfl, rfl⟩
  · intro f hf hret
    rw [ht, hr, hf]
    simp [PropVal.optionalCall, PropVal.call, Run.andThen, hret]

/-- C10, amended, at a concrete input: the first invocation with the default configuration
and a caller `onClick` that returns; a click runs the caller's handler, then `toggle`. -/
theorem getTogglerProps_onClick_witness :
    ∃ inv, useToggle "development" {} none = Except.ok inv
      ∧ ((inv.api.getTogglerProps (some ⟨[("onClick", PropVal.fn (fun args =>
          ⟨[Event.caller (String.join args)], none⟩))]⟩)).get "onClick").call ["click"]
        = ⟨[Event.caller "click", Event.dispatch { type := actionTypes.toggle }], none⟩ :=
  ⟨_, rfl,
    ((getTogglerProps_onClick "development" {} none _ rfl
      (some ⟨[("onClick", PropVal.fn (fun args =>
          ⟨[Event.caller (String.join args)], none⟩))]⟩) ["click"]).2.2.2 _ rfl rfl).1⟩

end Ex06

namespace Ex06

/-! ### Order of the merged click handlers -/

/-- The effects of the first of two sequenced calls come first in the trace. -/
theorem Run.trace_andThen_starts (first second : Run) :
    first.trace <+: (first.andThen second).trace := by
  unfold Run.andThen
  cases first.error with
  | none => exact List.prefix_append _ _
  | some e => exact List.prefix_refl _

/-- C11, refuted as stated: at the first invocation with the default configuration, a click on
the `onClick` built by `getTogglerProps` over a caller `onClick` runs the caller's handler
first and the `dispatch` of `toggle` second, which is not what running `toggle` first gives;
the same holds for `getResetterProps` and `reset`. -/
theorem getTogglerProps_caller_runs_first :
    (useToggle "development" {} none).map (fun inv =>
        ((inv.api.getTogglerProps (some ⟨[("onClick", PropVal.fn (fun _ =>
          ⟨[Event.caller "caller onClick"], none⟩))]⟩)).get "onClick").call ["click"])
      = Except.ok
          ⟨[Event.caller "caller onClick", Event.dispatch { type := actionTypes.toggle }], none⟩
      ∧ (useToggle "development" {} none).map (fun inv =>
        inv.api.toggle.andThen ⟨[Event.caller "caller onClick"], none⟩)
      = Except.ok
          ⟨[Event.dispatch { type := actionTypes.toggle }, Event.caller "caller onClick"], none⟩
      ∧ (useToggle "development" {} none).map (fun inv =>
        ((inv.api.getTogglerProps (some ⟨[("onClick", PropVal.fn (fun _ =>
          ⟨[Event.caller "caller onClick"], none⟩))]⟩)).get "onClick").call ["click"])
      ≠ (useToggle "development" {} none).map (fun inv =>
        inv.api.toggle.andThen ⟨[Event.caller "caller onClick"], none⟩)
      ∧ (useToggle "development" {} none).map (fun inv =>
        ((inv.api.getResetterProps (some ⟨[("onClick", PropVal.fn (fun _ =>
          ⟨[Event.caller "caller onClick"], none⟩))]⟩)).get "onClick").call ["click"])
      = Except.ok
          ⟨[Event.caller "caller onClick",
            Event.dispatch { type := actionTypes.reset, initialState := some { isOn := false } }],
            none⟩ := by
  refine ⟨rfl, rfl, ?_, rfl⟩
  intro h
  have h' : (⟨[Event.caller "caller onClick",
        Event.dispatch { type := actionTypes.toggle }], none⟩ : Run)
      = ⟨[Event.dispatch { type := actionTypes.toggle },
        Event.caller "caller onClick"], none⟩ := Except.ok.inj h
  have h'' := congrArg (fun r => r.trace.head?) h'
  simp at h''

/-- C11, amended: in an invocation of `useToggle` that returns, for every caller `onClick`
function and every argument list, the `onClick` built by `getTogglerProps` (respectively
`getResetterProps`) is the call of the caller's function followed by `toggle` (respectively
`reset`): the effects of the caller's function come first in the trace, and when it returns
the trace is its effects followed by those of the internal handler. -/
theorem getTogglerProps_onClick_caller_first (nodeEnv : String) (cfg : Config)
    (prev : Option Hooks) (inv : Invocation) (h : useToggle nodeEnv cfg prev = Except.ok inv)
    (arg : Option Props) (f : List String → Run)
    (hf : (arg.getD Props.empty).get "onClick" = PropVal.fn f) (args : List String) :
    ((inv.api.getTogglerProps arg).get "onClick").call args = (f args).andThen inv.api.toggle
      ∧ ((inv.api.getResetterProps arg).get "onClick").call args
        = (f args).andThen inv.api.reset
      ∧ (f args).trace <+: (((inv.api.getTogglerProps arg).get "onClick").call args).trace
      ∧ (f args).trace <+: (((inv.api.getResetterProps arg).get "onClick").call args).trace
      ∧ ((f args).error = none →
          (((inv.api.getTogglerProps arg).get "onClick").call args).trace
              = (f args).trace ++ inv.api.toggle.trace
            ∧ (((inv.api.getResetterProps arg).get "onClick").call args).trace
              = (f args).trace ++ inv.api.reset.trace) := by
  obtain ⟨-, -, -, -, hgt, hgr, -, -⟩ := useToggle_ok nodeEnv cfg prev inv h
  have ht : ((inv.api.getTogglerProps arg).get "onClick").call args
      = (f args).andThen inv.api.toggle := by
    rw [hgt, getTogglerProps_get_onClick, hf]
    exact callAll_pair _ _ _
  have hr : ((inv.api.getResetterProps arg).get "onClick").call args
      = (f args).andThen inv.api.reset := by
    rw [hgr, getResetterProps_get_onClick, hf]
    exact callAll_pair _ _ _
  refine ⟨ht, hr, ?_, ?_, ?_⟩
  · rw [ht]
    exact Run.trace_andThen_starts _ _
  · rw [hr]
    exact Run.trace_andThen_starts _ _
  · intro hret
    rw [ht, hr]
    simp [Run.andThen, hret]

/-- C11, amended, at a concrete input: the first invocation with the default configuration
and a caller `onClick` that returns. -/
theorem getTogglerProps_onClick_caller_first_witness :
    ∃ inv, useToggle "development" {} none = Except.ok inv
      ∧ [Event.caller "caller onClick"] <+:
        (((inv.api.getTogglerProps (some ⟨[("onClick", PropVal.fn (fun _ =>
          ⟨[Event.caller "caller onClick"], none⟩))]⟩)).get "onClick").call ["click"]).trace :=
  ⟨_, rfl,
    (getTogglerProps_onClick_caller_first "development" {} none _ rfl
      (some ⟨[("onClick", PropVal.fn (fun _ => ⟨[Event.caller "caller onClick"], none⟩))]⟩)
      (fun _ => ⟨[Event.caller "caller onClick"], none⟩) rfl ["click"]).2.2.1⟩

end Ex06

namespace Ex06

/-! ### The state machine of `App` -/

/-- With an external `on` supplied an invocation of `useToggle` returns, with that `on`. -/
theorem useToggle_controlled (nodeEnv : String) (cfg : Config) (c : Bool)
    (prev : Option Hooks) (hc : cfg.controlledOn = some c) :
    ∃ inv, useToggle nodeEnv cfg prev = Except.ok inv ∧ inv.api.isOn = c := by
  unfold useToggle
  simp only [hc]
  exact ⟨_, rfl, rfl⟩

/-- The default reducer on the effective state and the toggle action. -/
theorem toggleReducer_withOn_toggle (state : Option ToggleState) (b : Bool) :
    toggleReducer (some (withOn state b)) { type := actionTypes.toggle }
      = Except.ok (some { isOn := !b }) := by
  cases state <;> rfl

/-- A click on a controlled `Toggle` with an `onChange`: the `Switch` props exist, the click
calls `onChange` once with `{on: !on}` and the toggle action and nothing else, and the cells of
the `useToggle` behind it stay as they are. -/
theorem Toggle_controlled_click (nodeEnv : String) (b : Bool) (g : ChangeHandler)
    (prev : Option Hooks) :
    ∃ props inv, Toggle nodeEnv { controlledOn := some b, onChange := some g } prev
        = Except.ok (props, inv)
      ∧ Switch.click props
        = ⟨[Event.onChange (some { isOn := !b }) { type := actionTypes.toggle }],
            g (some { isOn := !b }) { type := actionTypes.toggle }⟩
      ∧ inv.hooks.afterRun toggleReducer (Switch.click props) = Except.ok inv.hooks := by
  obtain ⟨inv, hinv, hon⟩ := useToggle_controlled nodeEnv
    { controlledOn := some b, onChange := some g } b prev rfl
  obtain ⟨-, -, ht, -, hgt, -, -, -⟩ := useToggle_ok nodeEnv _ prev inv hinv
  have hclick : Switch.click (inv.api.getTogglerProps (some ⟨[("on", PropVal.bool inv.api.isOn)]⟩))
      = ⟨[Event.onChange (some { isOn := !b }) { type := actionTypes.toggle }],
          g (some { isOn := !b }) { type := actionTypes.toggle }⟩ := by
    unfold Switch.click
    rw [hgt, getTogglerProps_get_onClick]
    show callAll [PropVal.undefined, PropVal.fn (fun _ => inv.api.toggle)] ["click"] = _
    rw [callAll_pair]
    show inv.api.toggle = _
    rw [ht, hon]
    unfold dispatchWithOnChange
    simp only [Command.action, toggleReducer_withOn_toggle]
    rfl
  refine ⟨_, inv, ?_, hclick, ?_⟩
  · unfold Toggle
    rw [hinv]
  · rw [hclick]
    rfl

/-- One click on the second `Toggle` of `App`: past four counted clicks nothing changes,
otherwise `bothOn` is negated and `timesClicked` goes up by one. -/
theorem deliver_toggleChange (nodeEnv : String) (app : Option AppCells)
    (second : Option Hooks) :
    ∃ hooks, deliver nodeEnv ⟨app, second⟩ AppEvent.toggleChange
      = Except.ok
          ⟨some (if (App app).cells.timesClicked > 4 then (App app).cells
            else ⟨!(App app).cells.bothOn, (App app).cells.timesClicked + 1⟩),
            some hooks⟩ := by
  obtain ⟨props, inv, hT, hclick, hafter⟩ := Toggle_controlled_click nodeEnv
    (App app).cells.bothOn
    (fun state action =>
      match handleToggleChange (App app).cells.timesClicked state action with
      | Except.error e => some e
      | Except.ok _ => none) second
  refine ⟨inv.hooks, ?_⟩
  have hT' : Toggle nodeEnv (App app).secondToggle second = Except.ok (props, inv) := hT
  simp only [deliver, hT', hafter, hclick]
  by_cases hk : (App app).cells.timesClicked > 4
  · have hh : (App app).handleToggleChange (some { isOn := !(App app).cells.bothOn })
        { type := actionTypes.toggle } = Except.ok [] := by
      show handleToggleChange (App app).cells.timesClicked
        (some { isOn := !(App app).cells.bothOn }) { type := actionTypes.toggle }
        = Except.ok []
      unfold handleToggleChange
      rw [if_pos ⟨rfl, hk⟩]
    simp only [changeUpdates, hh, if_pos hk]
    rfl
  · have hh : (App app).handleToggleChange (some { isOn := !(App app).cells.bothOn })
        { type := actionTypes.toggle }
        = Except.ok [AppUpdate.setBothOn (!(App app).cells.bothOn),
            AppUpdate.setTimesClicked (fun c => c + 1)] := by
      show handleToggleChange (App app).cells.timesClicked
        (some { isOn := !(App app).cells.bothOn }) { type := actionTypes.toggle }
        = Except.ok [AppUpdate.setBothOn (!(App app).cells.bothOn),
            AppUpdate.setTimesClicked (fun c => c + 1)]
      unfold handleToggleChange
      rw [if_neg (fun h => hk h.2)]
    simp only [changeUpdates, hh, if_neg hk]
    rfl

end Ex06

namespace Ex06

/-- Negating the parity of a count gives the parity of the next count. -/
theorem not_odd_eq_odd_succ (k : Nat) :
    (!decide (k % 2 = 1)) = decide ((k + 1) % 2 = 1) := by
  rcases Nat.mod_two_eq_zero_or_one k with h | h
  · have h' : (k + 1) % 2 = 1 := by omega
    simp [h, h']
  · have h' : (k + 1) % 2 = 0 := by omega
    simp [h, h']

/-- Clicks on the second `Toggle` from any state of `App` in which at most five clicks are
counted and `bothOn` is the parity of the count: the count goes up to five and stays there,
and `bothOn` stays the parity of the count. -/
theorem deliverAll_toggleChange (nodeEnv : String) (n : Nat) :
    ∀ (app : Option AppCells) (second : Option Hooks),
      (App app).cells.timesClicked ≤ 5 →
      (App app).cells.bothOn = decide ((App app).cells.timesClicked % 2 = 1) →
      ∃ m, deliverAll nodeEnv ⟨app, second⟩ (List.replicate n AppEvent.toggleChange)
          = Except.ok m
        ∧ (App m.app).cells
          = ⟨decide (min ((App app).cells.timesClicked + n) 5 % 2 = 1),
              min ((App app).cells.timesClicked + n) 5⟩ := by
  induction n with
  | zero =>
    intro app second hle hpar
    refine ⟨⟨app, second⟩, rfl, ?_⟩
    have hmin : min ((App app).cells.timesClicked + 0) 5 = (App app).cells.timesClicked := by
      simp only [Nat.add_zero]
      exact Nat.min_eq_left hle
    rw [hmin, ← hpar]
  | succ n ih =>
    intro app second hle hpar
    obtain ⟨hooks, hstep⟩ := deliver_toggleChange nodeEnv app second
    by_cases hk : (App app).cells.timesClicked > 4
    · rw [if_pos hk] at hstep
      obtain ⟨m, hm, hcells⟩ := ih (some (App app).cells) (some hooks) hle hpar
      refine ⟨m, ?_, ?_⟩
      · simp only [List.replicate_succ, deliverAll, hstep]
        exact hm
      · rw [hcells]
        have h5 : (App app).cells.timesClicked = 5 := by omega
        have e1 : (App (some (App app).cells)).cells.timesClicked = 5 := h5
        rw [e1, h5]
        have e2 : min (5 + n) 5 = 5 := by omega
        have e3 : min (5 + (n + 1)) 5 = 5 := by omega
        rw [e2, e3]
    · rw [if_neg hk] at hstep
      have hle' : (App (some ⟨!(App app).cells.bothOn,
          (App app).cells.timesClicked + 1⟩)).cells.timesClicked ≤ 5 := by
        show (App app).cells.timesClicked + 1 ≤ 5
        omega
      have hpar' : (App (some ⟨!(App app).cells.bothOn,
          (App app).cells.timesClicked + 1⟩)).cells.bothOn
          = decide ((App (some ⟨!(App app).cells.bothOn,
            (App app).cells.timesClicked + 1⟩)).cells.timesClicked % 2 = 1) := by
        show (!(App app).cells.bothOn) = decide (((App app).cells.timesClicked + 1) % 2 = 1)
        rw [hpar]
        exact not_odd_eq_odd_succ _
      obtain ⟨m, hm, hcells⟩ := ih _ (some hooks) hle' hpar'
      refine ⟨m, ?_, ?_⟩
      · simp only [List.replicate_succ, deliverAll, hstep]
        exact hm
      · rw [hcells]
        have e1 : (App (some ⟨!(App app).cells.bothOn,
            (App app).cells.timesClicked + 1⟩)).cells.timesClicked
            = (App app).cells.timesClicked + 1 := rfl
        rw [e1]
        have e2 : (App app).cells.timesClicked + 1 + n
            = (App app).cells.timesClicked + (n + 1) := by omega
        rw [e2]

/-- C12: from the first invocation of `App`, and from the state `(false, 0)` that a reset
leaves, with any cells behind the second `Toggle`: after `n` clicks on the second `Toggle`
(one per invocation) the state is `(min n 5 is odd, min n 5)` and the notice is shown exactly
when `n` is at least five; and in every state with five or more counted clicks a further
click changes neither `bothOn` nor `timesClicked`. -/
theorem App_toggle_events (nodeEnv : String) (second : Option Hooks) (n : Nat) (b : Bool)
    (k : Nat) :
    (∃ m, deliverAll nodeEnv ⟨none, second⟩ (List.replicate n AppEvent.toggleChange)
          = Except.ok m
        ∧ (App m.app).cells = ⟨decide (min n 5 % 2 = 1), min n 5⟩
        ∧ (App m.app).cells.timesClicked ≤ 5
        ∧ (App m.app).notice = decide (5 ≤ n))
      ∧ (∃ m, deliverAll nodeEnv ⟨some ⟨false, 0⟩, second⟩
            (List.replicate n AppEvent.toggleChange) = Except.ok m
        ∧ (App m.app).cells = ⟨decide (min n 5 % 2 = 1), min n 5⟩
        ∧ (App m.app).cells.timesClicked ≤ 5
        ∧ (App m.app).notice = decide (5 ≤ n))
      ∧ (∃ hooks, deliver nodeEnv ⟨some ⟨b, k + 5⟩, second⟩ AppEvent.toggleChange
          = Except.ok ⟨some ⟨b, k + 5⟩, some hooks⟩) := by
  have key : ∀ app : Option AppCells, (App app).cells = ⟨false, 0⟩ →
      ∃ m, deliverAll nodeEnv ⟨app, second⟩ (List.replicate n AppEvent.toggleChange)
          = Except.ok m
        ∧ (App m.app).cells = ⟨decide (min n 5 % 2 = 1), min n 5⟩
        ∧ (App m.app).cells.timesClicked ≤ 5
        ∧ (App m.app).notice = decide (5 ≤ n) := by
    intro app happ
    obtain ⟨m, hm, hcells⟩ := deliverAll_toggleChange nodeEnv n app second
      (by rw [happ]; exact Nat.zero_le 5) (by rw [happ]; rfl)
    rw [happ] at hcells
    simp only [Nat.zero_add] at hcells
    refine ⟨m, hm, hcells, ?_, ?_⟩
    · rw [hcells]
      exact Nat.min_le_right n 5
    · show decide ((App m.app).cells.timesClicked > 4) = decide (5 ≤ n)
      rw [hcells]
      by_cases h5 : 5 ≤ n
      · have e : min n 5 = 5 := by omega
        simp [e, h5]
      · have e : min n 5 = n := by omega
        have h4 : ¬ n > 4 := by omega
        simp [e, h5, h4]
  refine ⟨key none rfl, key (some ⟨false, 0⟩) rfl, ?_⟩
  obtain ⟨hooks, hstep⟩ := deliver_toggleChange nodeEnv (some ⟨b, k + 5⟩) second
  have hk : (App (some ⟨b, k + 5⟩)).cells.timesClicked > 4 := by
    show k + 5 > 4
    omega
  rw [if_pos hk] at hstep
  exact ⟨hooks, hstep⟩

/-- C13: in every state of `App` (the reachable ones and the frozen one included), the first
invocation included, a click on Reset sets the state to `(false, 0)`, after which a click on
the second `Toggle` changes the state again, to `(true, 1)`. -/
theorem App_reset (nodeEnv : String) (app : Option AppCells) (second : Option Hooks) :
    deliver nodeEnv ⟨app, second⟩ AppEvent.resetClick = Except.ok ⟨some ⟨false, 0⟩, second⟩
      ∧ (∃ hooks, deliverAll nodeEnv ⟨app, second⟩
            [AppEvent.resetClick, AppEvent.toggleChange]
          = Except.ok ⟨some ⟨true, 1⟩, some hooks⟩)
      ∧ (∃ m, deliverAll nodeEnv ⟨some ⟨true, 5⟩, second⟩
            [AppEvent.toggleChange, AppEvent.resetClick, AppEvent.toggleChange]
          = Except.ok m ∧ m.app = some ⟨true, 1⟩) := by
  have hreset : ∀ a : Option AppCells, deliver nodeEnv ⟨a, second⟩ AppEvent.resetClick
      = Except.ok ⟨some ⟨false, 0⟩, second⟩ := fun _ => rfl
  obtain ⟨hooks, hstep⟩ := deliver_toggleChange nodeEnv (some ⟨false, 0⟩) second
  have hstep' : deliver nodeEnv ⟨some ⟨false, 0⟩, second⟩ AppEvent.toggleChange
      = Except.ok ⟨some ⟨true, 1⟩, some hooks⟩ := hstep
  refine ⟨hreset app, ⟨hooks, ?_⟩, ?_⟩
  · simp only [deliverAll, hreset, hstep']
  · obtain ⟨hooks5, hfrozen⟩ := deliver_toggleChange nodeEnv (some ⟨true, 5⟩) second
    have hfrozen' : deliver nodeEnv ⟨some ⟨true, 5⟩, second⟩ AppEvent.toggleChange
        = Except.ok ⟨some ⟨true, 5⟩, some hooks5⟩ := hfrozen
    obtain ⟨hooks', hnext⟩ := deliver_toggleChange nodeEnv (some ⟨false, 0⟩) (some hooks5)
    have hnext' : deliver nodeEnv ⟨some ⟨false, 0⟩, some hooks5⟩ AppEvent.toggleChange
        = Except.ok ⟨some ⟨true, 1⟩, some hooks'⟩ := hnext
    have hreset5 : deliver nodeEnv ⟨some ⟨true, 5⟩, some hooks5⟩ AppEvent.resetClick
        = Except.ok ⟨some ⟨false, 0⟩, some hooks5⟩ := rfl
    refine ⟨⟨some ⟨true, 1⟩, some hooks'⟩, ?_, rfl⟩
    simp only [deliverAll, hfrozen', hreset5, hnext']

end Ex06

namespace Ex06

/-! ### The misuse diagnostics -/

/-- Outside production every `warning` call of `useControlledWarnings` receives a true
condition: each condition is the negation of a conjunction with `inProduction`. -/
theorem useControlledWarnings_conditions (nodeEnv : String) (hdev : nodeEnv ≠ "production")
    (prev : Option Hooks) (onChange : Option ChangeHandler) (onIsControlled readOnly : Bool) :
    ∀ w ∈ (useControlledWarnings nodeEnv prev onChange onIsControlled readOnly).calls,
      w.condition = true := by
  intro w hw
  unfold useControlledWarnings at hw
  have hp : decide (nodeEnv = "production") = false := by simpa using hdev
  simp only [hp, Bool.and_false, Bool.not_false] at hw
  rcases List.mem_append.mp hw with h | h
  · split at h
    · rcases List.mem_singleton.mp h with rfl
      rfl
    · cases h
  · split at h
    · rcases List.mem_cons.mp h with rfl | h'
      · rfl
      · rcases List.mem_singleton.mp h' with rfl
        rfl
    · cases h

/-- A list of `warning` calls whose conditions are all true prints nothing. -/
theorem emittedMessages_of_conditions (nodeEnv : String) (calls : List WarningCall)
    (h : ∀ w ∈ calls, w.condition = true) : emittedMessages nodeEnv calls = [] := by
  unfold emittedMessages
  have : calls.filter (fun w => w.emitted nodeEnv) = [] := by
    apply List.filter_eq_nil_iff.mpr
    intro w hw
    simp [WarningCall.emitted, h w hw]
  rw [this]
  rfl

/-- C14, on the code: outside production `useControlledWarnings` never has the
on-without-onChange message printed, whatever `on`, `onChange` and `readOnly` are, the
combination of a supplied `on`, no `onChange` and `readOnly` false included. -/
theorem onWithoutOnChange_not_emitted (nodeEnv : String) (hdev : nodeEnv ≠ "production")
    (prev : Option Hooks) (onChange : Option ChangeHandler) (onIsControlled readOnly : Bool) :
    warningMessage.onWithoutOnChange ∉
      emittedMessages nodeEnv
        (useControlledWarnings nodeEnv prev onChange onIsControlled readOnly).calls := by
  rw [emittedMessages_of_conditions nodeEnv _
    (useControlledWarnings_conditions nodeEnv hdev prev onChange onIsControlled readOnly)]
  exact List.not_mem_nil _

/-- C14, at the failing input: the first invocation in development with `on = true`, no
`onChange` and `readOnly` false. -/
theorem onWithoutOnChange_not_emitted_witness :
    "development" ≠ "production"
      ∧ (useToggle "development" { controlledOn := some true } none).map
          (fun inv => inv.warnings)
        = Except.ok (useControlledWarnings "development" none none true false).calls
      ∧ warningMessage.onWithoutOnChange ∉
        emittedMessages "development"
          (useControlledWarnings "development" none none true false).calls :=
  ⟨by decide, rfl, onWithoutOnChange_not_emitted "development" (by decide) none none true false⟩

/-- C15, refuted as stated: in production the first invocation with `on = true`, no
`onChange` and `readOnly` false calls `warning` with a false condition for the
on-without-onChange message, and an invocation with `on = true` after a first invocation
without `on` calls it with a false condition for the first of the two transition messages: not
every `warning` call receives a true condition. -/
theorem production_warning_conditions_false :
    (useToggle "production" { controlledOn := some true } none).map (fun inv => inv.warnings)
        = Except.ok
          [⟨false, warningMessage.onWithoutOnChange⟩,
           ⟨true, warningMessage.valueForOnChangesToUndefinedOrNull⟩,
           ⟨true, warningMessage.undefinedOrNullForOnChangesToValue⟩]
      ∧ (invocations "production" none [({}, none)]
          { controlledOn := some true, onChange := some (fun _ _ => none) }).map
          (fun inv => inv.warnings)
        = Except.ok
          [⟨true, warningMessage.onWithoutOnChange⟩,
           ⟨false, warningMessage.valueForOnChangesToUndefinedOrNull⟩,
           ⟨true, warningMessage.undefinedOrNullForOnChangesToValue⟩] := by
  exact ⟨rfl, rfl⟩

/-- C15, amended: in production no message is printed, whatever the stored cells, `on`,
`onChange` and `readOnly` are and whatever conditions the `warning` calls receive: this holds
for the calls of `useControlledWarnings` and for the calls of every invocation of `useToggle`
that returns, the two failing inputs of the original claim included. -/
theorem production_emits_nothing (prev : Option Hooks) (onChange : Option ChangeHandler)
    (onIsControlled readOnly : Bool) (cfg : Config) :
    emittedMessages "production"
        (useControlledWarnings "production" prev onChange onIsControlled readOnly).calls = []
      ∧ (useToggle "production" cfg prev).map
          (fun inv => emittedMessages "production" inv.warnings)
        = (useToggle "production" cfg prev).map (fun _ => [])
      ∧ (useToggle "production" { controlledOn := some true } none).map
          (fun inv => emittedMessages "production" inv.warnings) = Except.ok []
      ∧ (invocations "production" none [({}, none)]
          { controlledOn := some true, onChange := some (fun _ _ => none) }).map
          (fun inv => emittedMessages "production" inv.warnings) = Except.ok [] := by
  have hnone : ∀ calls : List WarningCall, emittedMessages "production" calls = [] := by
    intro calls
    unfold emittedMessages
    have : calls.filter (fun w => w.emitted "production") = [] := by
      apply List.filter_eq_nil_iff.mpr
      intro w _
      simp [WarningCall.emitted]
    rw [this]
    rfl
  refine ⟨hnone _, ?_, rfl, rfl⟩
  cases h : useToggle "production" cfg prev with
  | error e => rfl
  | ok inv =>
    show Except.ok (emittedMessages "production" inv.warnings) = Except.ok []
    rw [hnone]

/-- C16, on the code: the mode is captured at the first invocation and kept (in development,
after a first invocation without `on`, an invocation with `on = true` still holds the captured
mode uncontrolled), but outside production no transition message is ever printed:
not in that invocation, where the current mode is controlled and the captured one is not, nor
in the opposite transition. -/
theorem transition_not_emitted_in_development :
    (invocations "development" none [({}, none)]
        { controlledOn := some true, onChange := some (fun _ _ => none) }).map
        (fun inv => (inv.hooks.onWasControlled, inv.warnings,
          emittedMessages "development" inv.warnings))
      = Except.ok (false,
          [⟨true, warningMessage.onWithoutOnChange⟩,
           ⟨true, warningMessage.valueForOnChangesToUndefinedOrNull⟩,
           ⟨true, warningMessage.undefinedOrNullForOnChangesToValue⟩], [])
      ∧ (invocations "development" none
          [({ controlledOn := some true, onChange := some (fun _ _ => none) }, none)] {}).map
        (fun inv => (inv.hooks.onWasControlled, inv.warnings,
          emittedMessages "development" inv.warnings))
      = Except.ok (true,
          [⟨true, warningMessage.onWithoutOnChange⟩,
           ⟨true, warningMessage.valueForOnChangesToUndefinedOrNull⟩,
           ⟨true, warningMessage.undefinedOrNullForOnChangesToValue⟩], []) := by
  exact ⟨rfl, rfl⟩

end Ex06

namespace Ex06

/-- `dispatchWithOnChange` does not read `readOnly`. -/
theorem dispatchWithOnChange_readOnly (cfg : Config) (readOnly' : Bool) :
    dispatchWithOnChange { cfg with readOnly := readOnly' } = dispatchWithOnChange cfg := rfl

/-- C17: take any configuration, stored cells and handler, and change `readOnly`, the value of
`process.env.NODE_ENV` and the cells that only `useControlledWarnings` uses (its ref and its
two dependency arrays).  Then `useToggle` throws the same or returns the same `on`, the same
outcome of the handler (its `dispatch` calls, its `onChange` calls with their arguments, its
error), the same stored state and the same stored state after the handler; and the only error
an invocation can throw is the TypeError of reading `state.on`, never a diagnostic. -/
theorem diagnostics_do_not_alter_behaviour (nodeEnv nodeEnv' : String) (cfg : Config)
    (readOnly' : Bool) (prev : Option Hooks) (wasControlled' : Bool)
    (misuseDeps' : Bool × Bool × Bool × Bool) (statusDeps' : Bool × Bool × Bool)
    (cmd : Command) :
    (useToggle nodeEnv cfg prev).map (fun inv =>
        (inv.api.isOn, cmd.run inv.api, inv.hooks.initialState, inv.hooks.state,
          applyDispatches cfg.reducer inv.hooks.state (cmd.run inv.api).trace))
      = (useToggle nodeEnv' { cfg with readOnly := readOnly' }
          (prev.map (fun h => { h with onWasControlled := wasControlled'
                                       misuseDeps := misuseDeps'
                                       statusDeps := statusDeps' }))).map (fun inv =>
        (inv.api.isOn, cmd.run inv.api, inv.hooks.initialState, inv.hooks.state,
          applyDispatches cfg.reducer inv.hooks.state (cmd.run inv.api).trace))
      ∧ (∀ e, useToggle nodeEnv cfg prev = Except.error e → e = Err.typeError) := by
  constructor
  · simp only [useToggle]
    simp only [dispatchWithOnChange_readOnly]
    cases prev with
    | none =>
      cases hc : cfg.controlledOn with
      | none =>
        simp only [hc]
        cases cmd <;> rfl
      | some c =>
        simp only [hc]
        cases cmd <;> rfl
    | some h =>
      cases hc : cfg.controlledOn with
      | none =>
        cases hs : h.state with
        | none =>
          simp only [hc, hs, useReducer, Option.map_some', Option.getD_some]
        | some st =>
          simp only [hc, hs, useReducer, Option.map_some', Option.getD_some]
          cases cmd <;> rfl
      | some c =>
        simp only [hc]
        cases cmd <;> rfl
  · intro e he
    unfold useToggle at he
    cases hc : cfg.controlledOn with
    | some c =>
      simp only [hc] at he
      cases he
    | none =>
      simp only [hc] at he
      split at he
      · rename_i e' heq
        split at heq
        · cases heq
        · injection heq with heq
          injection he with he
          rw [← he, ← heq]
      · cases he

end Ex06

namespace Ex06

/-! ### Would-be and actual next state, and the captured initial state -/

/-- Setting `on` to the `on` a state object already has gives that state object. -/
theorem withOn_self (s : ToggleState) : withOn (some s) s.isOn = s := by
  cases s
  rfl

/-- In uncontrolled mode `dispatchWithOnChange(action)` calls `dispatch` once, with the
action. -/
theorem dispatchCalls_uncontrolled (cfg : Config) (state : Option ToggleState) (on' : Bool)
    (action : Action) (hc : cfg.controlledOn = none) :
    dispatchCalls (dispatchWithOnChange cfg state on' action).trace = [action] := by
  unfold dispatchWithOnChange
  cases ho : cfg.onChange with
  | none => simp [hc, dispatchCalls]
  | some f =>
    cases hn : cfg.reducer (some (withOn state on')) action with
    | error e => simp [hc, dispatchCalls]
    | ok next => simp [hc, dispatchCalls]

/-- C18: in uncontrolled mode, for every reducer and `onChange`: for every state object `s`
and every action, the effective state `{...s, on}` with `on` taken from `s` is `s`, React
applies the reducer to `s` and the action once, and whenever the reducer returns `v` there,
`onChange` is called once with `v`; so in an invocation of `useToggle` that returns, for both
handlers, when the reducer returns `next` on the stored state and the action, `onChange` is
called with `next` and the stored state after the handler is `next`. -/
theorem onChange_state_is_next_stored_state (nodeEnv : String) (cfg : Config)
    (prev : Option Hooks) (inv : Invocation) (cmd : Command) (f : ChangeHandler)
    (next : Option ToggleState) (hc : cfg.controlledOn = none)
    (h : useToggle nodeEnv cfg prev = Except.ok inv) (hf : cfg.onChange = some f)
    (hr : cfg.reducer inv.hooks.state (cmd.action inv.hooks.initialState) = Except.ok next) :
    (∀ (s : ToggleState) (action : Action),
        withOn (some s) s.isOn = s
          ∧ applyDispatches cfg.reducer (some s)
              (dispatchWithOnChange cfg (some s) s.isOn action).trace
            = cfg.reducer (some s) action
          ∧ ∀ v, cfg.reducer (some s) action = Except.ok v →
              onChangeCalls (dispatchWithOnChange cfg (some s) s.isOn action).trace
                = [(v, action)])
      ∧ some (withOn inv.hooks.state inv.api.isOn) = inv.hooks.state
      ∧ onChangeCalls (cmd.run inv.api).trace = [(next, cmd.action inv.hooks.initialState)]
      ∧ applyDispatches cfg.reducer inv.hooks.state (cmd.run inv.api).trace = Except.ok next
      ∧ inv.hooks.afterRun cfg.reducer (cmd.run inv.api)
        = Except.ok { inv.hooks with state := next } := by
  obtain ⟨-, -, ht, hrs, -, -, -, hun⟩ := useToggle_ok nodeEnv cfg prev inv h
  obtain ⟨s, hs, hon⟩ := hun hc
  have hrun : cmd.run inv.api = dispatchWithOnChange cfg inv.hooks.state inv.api.isOn
      (cmd.action inv.hooks.initialState) := by
    cases cmd
    · exact ht
    · exact hrs
  have heff : withOn inv.hooks.state inv.api.isOn = s := by
    rw [hs, hon]
    exact withOn_self s
  have happly : applyDispatches cfg.reducer inv.hooks.state (cmd.run inv.api).trace
      = Except.ok next := by
    rw [hrun, applyDispatches_uncontrolled cfg _ _ _ _ _ hc, hr]
  refine ⟨?_, ?_, ?_, happly, ?_⟩
  · intro s' action
    refine ⟨withOn_self s', applyDispatches_uncontrolled cfg _ _ _ _ _ hc, ?_⟩
    intro v hv
    have hv' : cfg.reducer (some (withOn (some s') s'.isOn)) action = Except.ok v := by
      rw [withOn_self]
      exact hv
    exact (onChangeCalls_with_onChange cfg _ _ _ f v hf hv').1
  · rw [heff, hs]
  · rw [hrun]
    have hr' : cfg.reducer (some (withOn inv.hooks.state inv.api.isOn))
        (cmd.action inv.hooks.initialState) = Except.ok next := by
      rw [heff, ← hs]
      exact hr
    exact (onChangeCalls_with_onChange cfg _ _ _ f next hf hr').1
  · unfold Hooks.afterRun
    rw [happly]

/-- C18, at a concrete input: the first uncontrolled invocation with `initialOn = true` and an
`onChange` that returns; `toggle` passes `{on: false}` to `onChange` and stores it. -/
theorem onChange_state_is_next_stored_state_witness :
    ∃ inv, useToggle "development"
        { initialOn := true, onChange := some (fun _ _ => none) } none = Except.ok inv
      ∧ onChangeCalls inv.api.toggle.trace
        = [(some { isOn := false }, { type := actionTypes.toggle })]
      ∧ applyDispatches toggleReducer inv.hooks.state inv.api.toggle.trace
        = Except.ok (some { isOn := false }) :=
  ⟨_, rfl,
    (onChange_state_is_next_stored_state "development"
      { initialOn := true, onChange := some (fun _ _ => none) } none _ Command.toggle
      (fun _ _ => none) (some { isOn := false }) rfl rfl rfl rfl).2.2.1,
    (onChange_state_is_next_stored_state "development"
      { initialOn := true, onChange := some (fun _ _ => none) } none _ Command.toggle
      (fun _ _ => none) (some { isOn := false }) rfl rfl rfl rfl).2.2.2.1⟩

/-- Running a handler leaves the ref of the initial state as it is. -/
theorem Hooks.afterRun_initialState (hooks hooks' : Hooks) (reducer : Reducer) (run : Run)
    (h : hooks.afterRun reducer run = Except.ok hooks') :
    hooks'.initialState = hooks.initialState := by
  unfold Hooks.afterRun at h
  split at h
  · cases h
  · injection h with h
    rw [← h]

/-- Through any sequence of invocations the ref of the initial state holds what the first of
them stored: the stored value if there was one, else `{on: initialOn}` of the first
configuration. -/
theorem invocations_initialState (nodeEnv : String) (last : Config)
    (steps : List (Config × Option Command)) :
    ∀ (prev : Option Hooks) (inv : Invocation),
      invocations nodeEnv prev steps last = Except.ok inv →
      inv.hooks.initialState
        = useRef (prev.map (fun h => h.initialState))
            { isOn := (nextConfig steps last).initialOn } := by
  induction steps with
  | nil =>
    intro prev inv h
    exact (useToggle_ok nodeEnv last prev inv h).1
  | cons step rest ih =>
    obtain ⟨cfg, handler⟩ := step
    intro prev inv h
    simp only [invocations] at h
    cases h1 : useToggle nodeEnv cfg prev with
    | error e =>
      rw [h1] at h
      cases h
    | ok inv1 =>
      rw [h1] at h
      have hini := (useToggle_ok nodeEnv cfg prev inv1 h1).1
      cases handler with
      | none =>
        have := ih (some inv1.hooks) inv h
        rw [this]
        exact hini
      | some c =>
        simp only at h
        cases h2 : inv1.hooks.afterRun (nextConfig rest last).reducer (c.run inv1.api) with
        | error e =>
          rw [h2] at h
          cases h
        | ok hooks =>
          rw [h2] at h
          have := ih (some hooks) inv h
          rw [this]
          show hooks.initialState = _
          rw [Hooks.afterRun_initialState _ _ _ _ h2]
          exact hini

/-- C19, refuted as stated: with `initialOn = true`, no `on`, and a reducer that negates
`on` whatever the action is, `reset` at the first invocation dispatches the action carrying
`{on: true}`, and the next invocation returns `on = false`, not the first `initialOn`. -/
theorem reset_not_restored_by_other_reducer :
    (invocations "development" none
        [({ initialOn := true
            reducer := fun state _ =>
              match state with
              | some s => Except.ok (some { isOn := !s.isOn })
              | none => Except.error Err.typeError }, some Command.reset)]
        { initialOn := true
          reducer := fun state _ =>
            match state with
            | some s => Except.ok (some { isOn := !s.isOn })
            | none => Except.error Err.typeError }).map
        (fun inv => (inv.api.isOn, inv.hooks.initialState, dispatchCalls inv.api.reset.trace))
      = Except.ok (false, { isOn := true },
          [{ type := actionTypes.reset, initialState := some { isOn := true } }]) := by
  rfl

/-- C19, amended: through any sequence of invocations from the first one on, whatever
configuration (and so whatever `initialOn`) each of them is given and whatever handlers are
called in between: the ref holds `{on: initialOn}` of the first configuration, the action that
`reset` dispatches carries that state, and in uncontrolled mode, when the next invocation is
uncontrolled and its reducer returns the carried state on that action, `on` after `reset` is
the `initialOn` of the first configuration.  The default reducer returns the carried state on
every reset action, and a configuration without `initialOn` has `initialOn = false`. -/
theorem reset_restores_first_initialOn (nodeEnv : String)
    (steps : List (Config × Option Command)) (last : Config) (inv : Invocation)
    (h : invocations nodeEnv none steps last = Except.ok inv) :
    inv.hooks.initialState = { isOn := (nextConfig steps last).initialOn }
      ∧ inv.api.reset = dispatchWithOnChange last inv.hooks.state inv.api.isOn
          { type := actionTypes.reset,
            initialState := some { isOn := (nextConfig steps last).initialOn } }
      ∧ (last.controlledOn = none →
          dispatchCalls inv.api.reset.trace
            = [{ type := actionTypes.reset,
                 initialState := some { isOn := (nextConfig steps last).initialOn } }])
      ∧ (last.controlledOn = none → ∀ next : Config, next.controlledOn = none →
          next.reducer inv.hooks.state
              { type := actionTypes.reset,
                initialState := some { isOn := (nextConfig steps last).initialOn } }
            = Except.ok (some { isOn := (nextConfig steps last).initialOn }) →
          ∃ hooks inv', inv.hooks.afterRun next.reducer inv.api.reset = Except.ok hooks
            ∧ useToggle nodeEnv next (some hooks) = Except.ok inv'
            ∧ inv'.api.isOn = (nextConfig steps last).initialOn)
      ∧ (∀ (state : Option ToggleState) (carried : ToggleState),
          ({ } : Config).reducer state
              { type := actionTypes.reset, initialState := some carried }
            = Except.ok (some carried))
      ∧ ({ } : Config).initialOn = false := by
  have hini : inv.hooks.initialState = { isOn := (nextConfig steps last).initialOn } :=
    invocations_initialState nodeEnv last steps none inv h
  have hshape : ∃ prev, useToggle nodeEnv last prev = Except.ok inv := by
    clear hini
    generalize (none : Option Hooks) = prev at h
    induction steps generalizing prev with
    | nil => exact ⟨prev, h⟩
    | cons step rest ih =>
      obtain ⟨cfg, handler⟩ := step
      simp only [invocations] at h
      cases h1 : useToggle nodeEnv cfg prev with
      | error e =>
        rw [h1] at h
        cases h
      | ok inv1 =>
        rw [h1] at h
        cases handler with
        | none => exact ih _ h
        | some c =>
          simp only at h
          cases h2 : inv1.hooks.afterRun (nextConfig rest last).reducer (c.run inv1.api) with
          | error e =>
            rw [h2] at h
            cases h
          | ok hooks =>
            rw [h2] at h
            exact ih _ h
  obtain ⟨prev, hlast⟩ := hshape
  obtain ⟨-, -, -, hr, -, -, -, -⟩ := useToggle_ok nodeEnv last prev inv hlast
  have hreset : inv.api.reset = dispatchWithOnChange last inv.hooks.state inv.api.isOn
      { type := actionTypes.reset,
        initialState := some { isOn := (nextConfig steps last).initialOn } } := by
    rw [hr, hini]
    rfl
  refine ⟨hini, hreset, ?_, ?_, fun _ _ => rfl, rfl⟩
  · intro hc
    rw [hreset]
    exact dispatchCalls_uncontrolled last _ _ _ hc
  · intro hc next hnc hnr
    have happly : applyDispatches next.reducer inv.hooks.state inv.api.reset.trace
        = Except.ok (some { isOn := (nextConfig steps last).initialOn }) := by
      rw [hreset, applyDispatches_uncontrolled last _ _ _ _ _ hc, hnr]
    have hafter : inv.hooks.afterRun next.reducer inv.api.reset
        = Except.ok { inv.hooks with
            state := some { isOn := (nextConfig steps last).initialOn } } := by
      unfold Hooks.afterRun
      rw [happly]
    obtain ⟨inv', hinv', hon', -⟩ := useToggle_uncontrolled nodeEnv next
      (some { inv.hooks with state := some { isOn := (nextConfig steps last).initialOn } })
      { isOn := (nextConfig steps last).initialOn } hnc rfl
    exact ⟨_, inv', hafter, hinv', hon'⟩

/-- C19, amended, at a concrete input: a first invocation with `initialOn = true`, a
`toggle`, and a second invocation with `initialOn = false`, both with the default reducer;
`reset` still carries `{on: true}` and the invocation after it returns `on = true`. -/
theorem reset_restores_first_initialOn_witness :
    ∃ inv, invocations "development" none [({ initialOn := true }, some Command.toggle)]
        { initialOn := false } = Except.ok inv
      ∧ inv.api.isOn = false
      ∧ dispatchCalls inv.api.reset.trace
        = [{ type := actionTypes.reset, initialState := some { isOn := true } }]
      ∧ ∃ hooks inv', inv.hooks.afterRun toggleReducer inv.api.reset = Except.ok hooks
          ∧ useToggle "development" { initialOn := false } (some hooks) = Except.ok inv'
          ∧ inv'.api.isOn = true :=
  ⟨_, rfl, rfl,
    (reset_restores_first_initialOn "development"
      [({ initialOn := true }, some Command.toggle)] { initialOn := false } _ rfl).2.2.1 rfl,
    (reset_restores_first_initialOn "development"
      [({ initialOn := true }, some Command.toggle)] { initialOn := false } _ rfl).2.2.2.1 rfl
      { initialOn := false } rfl rfl⟩

end Ex06

namespace Ex03

/-- The stored `on` after the same `toggle` has been called once or more is the value that
`toggle` sets, whatever was stored before. -/
theorem afterRun_repeated (value current : Bool) (k : Nat) :
    afterRun current (repeated ⟨[Event.setOn value], none⟩ (k + 1)) = value := by
  induction k generalizing current with
  | zero => rfl
  | succ k ih =>
    have := ih value
    simpa [afterRun, repeated, Run.andThen] using this

/-- The stored `on` after `n` rounds of invoking `Toggle` and calling the fresh `toggle` is
flipped `n` times. -/
theorem rounds_eq (n : Nat) :
    ∀ stored : Option Bool,
      rounds stored n = (if n % 2 = 1 then !(Toggle stored).isOn else (Toggle stored).isOn) := by
  induction n with
  | zero => intro stored; rfl
  | succ n ih =>
    intro stored
    have hstep : rounds stored (n + 1)
        = rounds (some (!(Toggle stored).isOn)) n := rfl
    rw [hstep, ih]
    have hon : (Toggle (some (!(Toggle stored).isOn))).isOn = !(Toggle stored).isOn := rfl
    rw [hon]
    rcases Nat.mod_two_eq_zero_or_one n with h | h
    · have h' : (n + 1) % 2 = 1 := by omega
      simp [h, h']
    · have h' : (n + 1) % 2 = 0 := by omega
      simp [h, h']

/-- C20: the `toggle` established by an invocation of `Toggle` that saw `on = b` calls
`setOn(!b)`; called once or more (`k + 1` times) before the next invocation it leaves the
stored `on` at `!b`, whatever the stored value is when it is called; whereas calling the fresh
`toggle` of each of `n` successive invocations, from the first invocation (where `on` is
false), leaves `on` true exactly when `n` is odd. -/
theorem Toggle_toggle_sets_not_seen (stored : Option Bool) (current : Bool) (k n : Nat) :
    (Toggle stored).toggle = ⟨[Event.setOn (!(Toggle stored).isOn)], none⟩
      ∧ afterRun current (repeated (Toggle stored).toggle (k + 1)) = !(Toggle stored).isOn
      ∧ afterRun current (repeated (Toggle stored).toggle 2) = !(Toggle stored).isOn
      ∧ (Toggle none).isOn = false
      ∧ rounds none n = decide (n % 2 = 1)
      ∧ rounds stored 2 = (Toggle stored).isOn := by
  refine ⟨rfl, afterRun_repeated _ current k, afterRun_repeated _ current 1, rfl, ?_, ?_⟩
  · rw [rounds_eq n none]
    by_cases h : n % 2 = 1 <;> simp [h, Toggle, useState]
  · rw [rounds_eq 2 stored]
    rfl

end Ex03

end EpicReact
